import Mathlib

/-!
Verification of the donation-fulfillment pipeline of the
Copy-Innovate-Backend repository.

Shallow embedding of:
* `src/routes/markDonation.js` — the `POST /mark-donation` handler
  (`confirmDonation` below), its in-memory `processingLock`, and the
  atomic `BloodRequest.findOneAndUpdate` reservation;
* the SSE notification hub (`broadcastNotification`);
* the recency filter (`filterRecentLocations`).

Machine integers of the source (millisecond epoch timestamps) are
modelled as `Int`; Mongo ObjectIds as `Nat` drawn from a fresh-id
counter; optional document fields as `Option`; a JS falsy optional
string (absent or empty) is normalised by `optStr`.
-/

/-- Status of a blood request (`status` field of the BloodRequest model). -/
inductive ReqStatus
  | active
  | fulfilled
  | cancelled
  | expired
deriving Repr, DecidableEq

/-- A BloodRequest document: the mutable ledger
(`confirmedUnits`, `status`, `activeTokens`) plus the fields read by
`markDonation.js` (`quantity`, `requiredBy`, `bloodGroup`, `createdAt`,
`hospitalId`, `batchInProgress`, `fulfilledAt`). -/
structure BloodRequest where
  id : Nat
  hospitalId : Nat
  bloodGroup : String
  quantity : Nat
  confirmedUnits : Nat
  status : ReqStatus
  requiredBy : Option Int
  activeTokens : List String
  createdAt : Int
  fulfilledAt : Option Int
  batchInProgress : Bool
deriving Repr, DecidableEq

/-- A document of the `locations` collection (schema declared at the top
of `markDonation.js`). -/
structure LocationRecord where
  donorId : String
  userName : Option String
  mobileNumber : Option String
  requestId : Option Nat
  token : Option String
  address : Option String
  latitude : Option Int
  longitude : Option Int
  timestamp : Int
deriving Repr, DecidableEq

/-- A registered Donor document (fields read by `markDonation.js`). -/
structure Donor where
  id : Nat
  uniqueId : Option String
  name : String
  phone : String
  bloodGroup : Option String
  lastDonationDate : Option Int
deriving Repr, DecidableEq

/-- A DonationHistory document, with exactly the fields written by
`DonationHistory.create` in `markDonation.js`. -/
structure DonationHistory where
  donorId : String
  bloodRequestId : Nat
  hospitalId : Nat
  donorName : String
  donorPhone : String
  donorBloodGroup : Option String
  status : String
  completedAt : Int
  lat : Int
  lng : Int
  address : String
  notes : String
deriving Repr, DecidableEq

/-- The typed outcome of a `POST /mark-donation` call, one constructor
per `return res...` exit of the handler. -/
inductive Outcome
  | missingDonorId
  | alreadyProcessing
  | alreadyDonated
  | donorNotFound
  | requestExpired
  | reservationConflict
  | success (donation : DonationHistory)
deriving Repr, DecidableEq

/-- The persistent collections plus the process-wide `processingLock`
set and a fresh-ObjectId counter. -/
structure ServerState where
  requests : List BloodRequest
  donors : List Donor
  locations : List LocationRecord
  history : List DonationHistory
  processingLock : List String
  nextId : Nat
deriving Repr, DecidableEq

/-- Normalise a JS optional string: `undefined` and `""` are both falsy. -/
def optStr : Option String → Option String
  | some "" => none
  | s => s

/-- `mobileNumber.replace(/\s+/g, '')`: drop all whitespace. -/
def removeWhitespace (s : String) : String :=
  String.mk (s.data.filter fun c => !c.isWhitespace)

/-- Replace the first element satisfying `p` by its `f`-image (the write
half of Mongo `findOneAndUpdate`, and of a Mongoose `save()` targeting
one document). -/
def updateFirst {α : Type} (p : α → Bool) (f : α → α) : List α → List α
  | [] => []
  | x :: xs => if p x then f x :: xs else x :: updateFirst p f xs

/-- Donor-profile resolution of `markDonation.js` lines 96–115:
by `uniqueId`, else by phone (raw or whitespace-stripped) when the
location carries a mobile number, else by case-insensitive exact name. -/
def resolveDonor (donors : List Donor) (donorId : String) (loc : LocationRecord) : Option Donor :=
  match donors.find? (fun d => decide (d.uniqueId = some donorId)) with
  | some d => some d
  | none =>
    let byPhone :=
      match optStr loc.mobileNumber with
      | some m =>
          donors.find? (fun d => decide (d.phone = m) || decide (d.phone = removeWhitespace m))
      | none => none
    match byPhone with
    | some d => some d
    | none =>
      match optStr loc.userName with
      | some n => donors.find? (fun d => decide (d.name.toLower = n.trim.toLower))
      | none => none

/-- Accumulator step of the `sort({createdAt: -1}).findOne` embedding:
keep the later-created of the two candidates (the earlier-seen one on
ties). -/
def laterCreated (acc : Option BloodRequest) (r : BloodRequest) : Option BloodRequest :=
  match acc with
  | none => some r
  | some b => if b.createdAt < r.createdAt then some r else some b

/-- `BloodRequest.findOne({bloodGroup, status: 'active'}).sort({createdAt: -1})`:
the active request with the given blood group having the greatest
`createdAt` (first such on ties). -/
def mostRecentActive (reqs : List BloodRequest) (bg : String) : Option BloodRequest :=
  (reqs.filter fun r => decide (r.bloodGroup = bg ∧ r.status = ReqStatus.active)).foldl
    laterCreated none

/-- `BloodRequest.findById(actualRequestId)` when a candidate id is
present (`markDonation.js` lines 124–127). -/
def lookupById (reqs : List BloodRequest) : Option Nat → Option BloodRequest
  | some rid => reqs.find? (fun r => decide (r.id = rid))
  | none => none

/-- The blood-group fallback search (`markDonation.js` lines 130–139):
only attempted when a Donor profile with a blood group was resolved. -/
def fallbackByBloodGroup (reqs : List BloodRequest) : Option Donor → Option BloodRequest
  | some d =>
    match d.bloodGroup with
    | some bg => mostRecentActive reqs bg
    | none => none
  | none => none

/-- The request fabricated by `BloodRequest.create` (`markDonation.js`
lines 142–152): placeholder hospital id, quantity 1, `requiredBy` 24
hours ahead, blood group of the resolved donor or `O+`. -/
def fallbackRequest (now : Int) (donorRecord : Option Donor) (nextId : Nat) : BloodRequest :=
  { id := nextId
    hospitalId := nextId + 1
    bloodGroup := ((donorRecord.bind Donor.bloodGroup).getD "O+")
    quantity := 1
    confirmedUnits := 0
    status := ReqStatus.active
    requiredBy := some (now + 24 * 60 * 60 * 1000)
    activeTokens := []
    createdAt := now
    fulfilledAt := none
    batchInProgress := false }

/-- The single candidate id `requestId || locationRecord.requestId`
(`markDonation.js` line 120): the explicit id wins when supplied, even
when it resolves to nothing. -/
def actualRequestIdOf (requestId : Option Nat) (loc : LocationRecord) : Option Nat :=
  match requestId with
  | some rid => some rid
  | none => loc.requestId

/-- Request resolution of `markDonation.js` lines 119–152: the single
candidate id `requestId || locationRecord.requestId` looked up by
`findById`; else the most-recently-created active request matching the
resolved donor's blood group; else create a fresh request.  Returns the
resolved request, the updated request list and the updated fresh-id
counter. -/
def resolveRequest (now : Int) (requestId : Option Nat) (loc : LocationRecord)
    (donorRecord : Option Donor) (reqs : List BloodRequest) (nextId : Nat) :
    BloodRequest × List BloodRequest × Nat :=
  match lookupById reqs (actualRequestIdOf requestId loc) with
  | some r => (r, reqs, nextId)
  | none =>
    match fallbackByBloodGroup reqs donorRecord with
    | some r => (r, reqs, nextId)
    | none =>
      let newReq := fallbackRequest now donorRecord nextId
      (newReq, reqs ++ [newReq], nextId + 2)

/-- The DonationHistory document built by `DonationHistory.create`
(`markDonation.js` lines 155–170). -/
def mkDonation (now : Int) (donorId : String) (donorName : Option String)
    (donorRecord : Option Donor) (loc : LocationRecord) (req : BloodRequest) :
    DonationHistory :=
  { donorId :=
      match donorRecord with
      | some d => toString d.id
      | none => donorId
    bloodRequestId := req.id
    hospitalId := req.hospitalId
    donorName :=
      match donorRecord with
      | some d => d.name
      | none => (optStr loc.userName).getD ((optStr donorName).getD "Unknown Donor")
    donorPhone :=
      match donorRecord with
      | some d => d.phone
      | none => (optStr loc.mobileNumber).getD "0000000000"
    donorBloodGroup :=
      match donorRecord with
      | some d => d.bloodGroup
      | none => some "Unknown"
    status := "completed"
    completedAt := now
    lat := loc.latitude.getD 0
    lng := loc.longitude.getD 0
    address := (optStr loc.address).getD "Location Shared"
    notes := "Manual Entry: " ++ donorId }

/-- Donor `lastDonationDate` update (`markDonation.js` lines 174–191):
save the resolved donor with a fresh timestamp; when no donor resolved,
retry the `uniqueId` lookup and save that match, if any. -/
def updateLastDonation (now : Int) (donorId : String) (donorRecord : Option Donor)
    (donors : List Donor) : List Donor :=
  match donorRecord with
  | some d =>
      updateFirst (fun x => decide (x.id = d.id))
        (fun _ => { d with lastDonationDate := some now }) donors
  | none =>
    match donors.find? (fun x => decide (x.uniqueId = some donorId)) with
    | some d =>
        updateFirst (fun x => decide (x.id = d.id))
          (fun _ => { d with lastDonationDate := some now }) donors
    | none => donors

/-- Expiry test of `markDonation.js` line 196: snapshot still `active`,
`requiredBy` present, and now strictly past the deadline. -/
def expiryDue (now : Int) (b : BloodRequest) : Bool :=
  decide (b.status = ReqStatus.active) &&
    (match b.requiredBy with
     | some rb => decide (rb < now)
     | none => false)

/-- Filter of the atomic `BloodRequest.findOneAndUpdate` (lines 206–216):
id matches, status `active`, `confirmedUnits < quantity`, and — only
when a token is present and does not start with the `DIRECT_` sentinel —
the token is in `activeTokens`. -/
def reserveGuard (rid : Nat) (token : Option String) (r : BloodRequest) : Bool :=
  decide (r.id = rid) && decide (r.status = ReqStatus.active) &&
    decide (r.confirmedUnits < r.quantity) &&
    (match token with
     | some t => if !t.startsWith "DIRECT_" then r.activeTokens.contains t else true
     | none => true)

/-- Steps 5–8 of the handler (`markDonation.js` lines 193–257), run on
the state `st4` left by the history write and donor update: expiry
transition and `RequestExpired` exit; atomic conditional increment and
`ReservationConflict` exit; `fulfilled` transition when the quota is
met; eviction of the consumed location; lock released exactly on the
two failure exits. -/
def finishDonation (now : Int) (donorId : String) (token : Option String)
    (b : BloodRequest) (donation : DonationHistory) (st4 : ServerState) :
    Outcome × ServerState :=
  if expiryDue now b then
    (Outcome.requestExpired,
     { st4 with
       requests :=
         updateFirst (fun r => decide (r.id = b.id))
           (fun _ => { b with status := ReqStatus.expired, activeTokens := [] })
           st4.requests
       processingLock := st4.processingLock.erase donorId })
  else
    match st4.requests.find? (reserveGuard b.id token) with
    | none =>
        (Outcome.reservationConflict,
         { st4 with processingLock := st4.processingLock.erase donorId })
    | some y =>
      let updated := { y with confirmedUnits := y.confirmedUnits + 1 }
      let reqs5 :=
        updateFirst (reserveGuard b.id token)
          (fun r => { r with confirmedUnits := r.confirmedUnits + 1 })
          st4.requests
      let reqs6 :=
        if updated.quantity ≤ updated.confirmedUnits then
          updateFirst (fun r => decide (r.id = updated.id))
            (fun _ =>
              { updated with
                status := ReqStatus.fulfilled
                fulfilledAt := some now
                activeTokens := []
                batchInProgress := false })
            reqs5
        else reqs5
      (Outcome.success donation,
       { st4 with
         requests := reqs6
         locations := st4.locations.eraseP (fun l => decide (l.donorId = donorId)) })

/-- The `POST /mark-donation` handler of `markDonation.js`, as a state
transformer: duplicate-guard check, `AlreadyDonated` history check,
location lookup, donor and request resolution, history write,
`lastDonationDate` update, then `finishDonation` — in source order. -/
def confirmDonation (now : Int) (donorId : String) (donorName : Option String)
    (requestId : Option Nat) (st : ServerState) : Outcome × ServerState :=
  if donorId = "" then (Outcome.missingDonorId, st)
  else if donorId ∈ st.processingLock then (Outcome.alreadyProcessing, st)
  else if st.history.any (fun h => decide (h.donorId = donorId ∧ h.status = "completed")) then
    (Outcome.alreadyDonated, { st with processingLock := donorId :: st.processingLock })
  else
    match st.locations.find? (fun l => decide (l.donorId = donorId)) with
    | none =>
        (Outcome.donorNotFound,
         { st with processingLock := (donorId :: st.processingLock).erase donorId })
    | some loc =>
      match resolveRequest now requestId loc (resolveDonor st.donors donorId loc)
          st.requests st.nextId with
      | (b, reqs2, next2) =>
        finishDonation now donorId (optStr loc.token) b
          (mkDonation now donorId donorName (resolveDonor st.donors donorId loc) loc b)
          { st with
            processingLock := donorId :: st.processingLock
            requests := reqs2
            nextId := next2
            history := st.history ++
              [mkDonation now donorId donorName (resolveDonor st.donors donorId loc) loc b]
            donors := updateLastDonation now donorId (resolveDonor st.donors donorId loc)
              st.donors }

/-- Inputs of one `POST /mark-donation` call. -/
structure CallInput where
  now : Int
  donorId : String
  donorName : Option String
  requestId : Option Nat
deriving Repr, DecidableEq

/-- Run a sequence of `POST /mark-donation` calls. -/
def applyCalls (calls : List CallInput) (st : ServerState) : ServerState :=
  calls.foldl (fun s c => (confirmDonation c.now c.donorId c.donorName c.requestId s).2) st

/-- The SSE hub's `broadcastNotification` (notification stream module):
given the `clients` map (hospital id to connection set) and the
notification's hospital id, return the connections the payload is
written to.  No hospital id: every connection of every hospital; absent
or empty subscriber set: silent no-op; otherwise exactly that hospital's
set. -/
def broadcastNotification (clients : List (String × List Nat))
    (hospitalId : Option String) : List Nat :=
  match hospitalId with
  | none => (clients.map Prod.snd).flatten
  | some h =>
    match clients.find? (fun c => decide (c.1 = h)) with
    | none => []
    | some c => if c.2.isEmpty then [] else c.2

/-- A location entry as consumed by the recency filter: the effective
timestamp fallback chain is `timestamp || responseTime || createdAt`. -/
structure LocEntry where
  userName : Option String
  timestamp : Option Int
  responseTime : Option Int
  createdAt : Int
deriving Repr, DecidableEq

/-- `new Date(location.timestamp || location.responseTime || location.createdAt)`. -/
def effectiveTimestamp (l : LocEntry) : Int :=
  l.timestamp.getD (l.responseTime.getD l.createdAt)

/-- `filterRecentLocations(locations, maxAgeHours)` of the location-time
utility module: keep entries whose effective timestamp is at or after
`now - maxAgeHours` hours. -/
def filterRecentLocations (locations : List LocEntry) (now : Int)
    (maxAgeHours : Int) : List LocEntry :=
  let maxAgeMs := maxAgeHours * 60 * 60 * 1000
  let cutoffTime := now - maxAgeMs
  locations.filter fun l => decide (cutoffTime ≤ effectiveTimestamp l)

/-- `filterRecentLocations` at its default argument (`maxAgeHours = 1`). -/
def filterRecentLocationsDefault (locations : List LocEntry) (now : Int) : List LocEntry :=
  filterRecentLocations locations now 1

/-! ### Helper lemmas on `updateFirst` and `List.find?` -/

theorem updateFirst_eq_of_forall_neg {α : Type} (p : α → Bool) (f : α → α) (l : List α)
    (h : ∀ x ∈ l, p x = false) : updateFirst p f l = l := by
  induction l with
  | nil => rfl
  | cons a l ih =>
    have ha := h a (List.mem_cons_self a l)
    simp [updateFirst, ha, ih (fun x hx => h x (List.mem_cons_of_mem a hx))]

theorem mem_updateFirst {α : Type} {p : α → Bool} {f : α → α} {l : List α} {x : α}
    (hx : x ∈ updateFirst p f l) : x ∈ l ∨ ∃ y ∈ l, p y = true ∧ x = f y := by
  induction l with
  | nil => simp [updateFirst] at hx
  | cons a l ih =>
    cases hpa : p a with
    | true =>
      rw [updateFirst, hpa] at hx
      simp only [if_true] at hx
      rcases List.mem_cons.mp hx with rfl | hx'
      · exact Or.inr ⟨a, List.mem_cons_self a l, hpa, rfl⟩
      · exact Or.inl (List.mem_cons_of_mem a hx')
    | false =>
      rw [updateFirst, hpa, if_neg Bool.false_ne_true] at hx
      rcases List.mem_cons.mp hx with rfl | hx'
      · exact Or.inl (List.mem_cons_self x l)
      · rcases ih hx' with h' | ⟨y, hy, hpy, hxy⟩
        · exact Or.inl (List.mem_cons_of_mem a h')
        · exact Or.inr ⟨y, List.mem_cons_of_mem a hy, hpy, hxy⟩

theorem mem_updateFirst_of_neg {α : Type} {p : α → Bool} (f : α → α) {l : List α} {x : α}
    (hx : x ∈ l) (hpx : p x = false) : x ∈ updateFirst p f l := by
  induction l with
  | nil => simp at hx
  | cons a l ih =>
    cases hpa : p a with
    | true =>
      rw [updateFirst, hpa]
      simp only [if_true]
      rcases List.mem_cons.mp hx with rfl | hx'
      · rw [hpa] at hpx; cases hpx
      · exact List.mem_cons_of_mem _ hx'
    | false =>
      rw [updateFirst, hpa, if_neg Bool.false_ne_true]
      rcases List.mem_cons.mp hx with rfl | hx'
      · exact List.mem_cons_self x _
      · exact List.mem_cons_of_mem a (ih hx')

theorem updateFirst_split {α : Type} (p : α → Bool) (f : α → α) {l : List α} {y : α}
    (h : l.find? p = some y) :
    ∃ l₁ l₂, l = l₁ ++ y :: l₂ ∧ (∀ x ∈ l₁, p x = false) ∧
      updateFirst p f l = l₁ ++ f y :: l₂ := by
  induction l with
  | nil => simp at h
  | cons a l ih =>
    cases hpa : p a with
    | true =>
      rw [List.find?_cons_of_pos l hpa] at h
      obtain rfl : a = y := Option.some.inj h
      exact ⟨[], l, rfl, by simp, by simp [updateFirst, hpa]⟩
    | false =>
      rw [List.find?_cons_of_neg l (by simp [hpa])] at h
      obtain ⟨l₁, l₂, hl, hneg, hupd⟩ := ih h
      refine ⟨a :: l₁, l₂, by simp [hl], ?_, ?_⟩
      · intro x hx
        rcases List.mem_cons.mp hx with rfl | hx'
        · exact hpa
        · exact hneg x hx'
      · simp [updateFirst, hpa, hupd]

theorem find?_middle {α : Type} (p : α → Bool) (l₁ l₂ : List α) (y : α)
    (h1 : ∀ x ∈ l₁, p x = false) (hy : p y = true) :
    (l₁ ++ y :: l₂).find? p = some y := by
  induction l₁ with
  | nil => simpa using List.find?_cons_of_pos l₂ hy
  | cons a l₁ ih =>
    have ha := h1 a (List.mem_cons_self a l₁)
    rw [List.cons_append, List.find?_cons_of_neg _ (by simp [ha])]
    exact ih (fun x hx => h1 x (List.mem_cons_of_mem a hx))

theorem find?_eq_of_nodup_key {α β : Type} [DecidableEq β] (key : α → β) {l : List α}
    (hn : (l.map key).Nodup) {y : α} (hy : y ∈ l) :
    l.find? (fun x => decide (key x = key y)) = some y := by
  induction l with
  | nil => simp at hy
  | cons a l ih =>
    rcases List.mem_cons.mp hy with rfl | hy'
    · exact List.find?_cons_of_pos l (by simp)
    · have hn' : (l.map key).Nodup := (List.nodup_cons.mp (by simpa using hn)).2
      have hka : ¬ key a = key y := by
        intro he
        exact (List.nodup_cons.mp (by simpa using hn)).1 (he ▸ List.mem_map_of_mem key hy')
      rw [List.find?_cons_of_neg l (by simp [hka])]
      exact ih hn' hy'

/-! ### Invariants of the request ledger -/

/-- The ledger counter invariant: `confirmedUnits ≤ quantity` (the lower
bound `0 ≤ confirmedUnits` is carried by the `Nat` type). -/
def UnitsInv (reqs : List BloodRequest) : Prop :=
  ∀ r ∈ reqs, r.confirmedUnits ≤ r.quantity

/-- The closed-request invariant: a non-active request holds no tokens. -/
def TokensInv (reqs : List BloodRequest) : Prop :=
  ∀ r ∈ reqs, r.status ≠ ReqStatus.active → r.activeTokens = []

/-- ObjectId well-formedness: request ids are pairwise distinct and
below the fresh-id counter. -/
def IdsOk (reqs : List BloodRequest) (nextId : Nat) : Prop :=
  (reqs.map BloodRequest.id).Nodup ∧ ∀ r ∈ reqs, r.id < nextId

theorem unitsInv_updateFirst {p : BloodRequest → Bool} {f : BloodRequest → BloodRequest}
    {l : List BloodRequest} (h : UnitsInv l)
    (hf : ∀ y ∈ l, p y = true → (f y).confirmedUnits ≤ (f y).quantity) :
    UnitsInv (updateFirst p f l) := by
  intro x hx
  rcases mem_updateFirst hx with hx' | ⟨y, hy, hpy, rfl⟩
  · exact h x hx'
  · exact hf y hy hpy

theorem tokensInv_updateFirst {p : BloodRequest → Bool} {f : BloodRequest → BloodRequest}
    {l : List BloodRequest} (h : TokensInv l)
    (hf : ∀ y ∈ l, p y = true → (f y).status ≠ ReqStatus.active → (f y).activeTokens = []) :
    TokensInv (updateFirst p f l) := by
  intro x hx
  rcases mem_updateFirst hx with hx' | ⟨y, hy, hpy, rfl⟩
  · exact h x hx'
  · exact hf y hy hpy

/-! ### Resolution lemmas -/

theorem foldl_laterCreated_mem : ∀ (l : List BloodRequest) (acc : Option BloodRequest)
    (r : BloodRequest), l.foldl laterCreated acc = some r → acc = some r ∨ r ∈ l := by
  intro l
  induction l with
  | nil => exact fun acc r h => Or.inl h
  | cons a l ih =>
    intro acc r h
    rw [List.foldl_cons] at h
    rcases ih _ r h with h' | h'
    · cases acc with
      | none =>
        have : a = r := by simpa [laterCreated] using h'
        exact Or.inr (this ▸ List.mem_cons_self a l)
      | some c =>
        by_cases hlt : c.createdAt < a.createdAt
        · have : a = r := by simpa [laterCreated, hlt] using h'
          exact Or.inr (this ▸ List.mem_cons_self a l)
        · have : c = r := by simpa [laterCreated, hlt] using h'
          exact Or.inl (congrArg some this)
    · exact Or.inr (List.mem_cons_of_mem a h')

theorem mostRecentActive_mem {reqs : List BloodRequest} {bg : String} {r : BloodRequest}
    (h : mostRecentActive reqs bg = some r) : r ∈ reqs := by
  unfold mostRecentActive at h
  rcases foldl_laterCreated_mem _ none r h with h' | h'
  · cases h'
  · exact List.mem_of_mem_filter h'

theorem lookupById_mem {reqs : List BloodRequest} {orid : Option Nat} {r : BloodRequest}
    (h : lookupById reqs orid = some r) : r ∈ reqs := by
  cases orid with
  | some rid => exact List.mem_of_find?_eq_some h
  | none => cases h

theorem fallbackByBloodGroup_mem {reqs : List BloodRequest} {dRec : Option Donor}
    {r : BloodRequest} (h : fallbackByBloodGroup reqs dRec = some r) : r ∈ reqs := by
  cases dRec with
  | none => cases h
  | some d =>
    cases hbg : d.bloodGroup with
    | none => rw [fallbackByBloodGroup, hbg] at h; cases h
    | some bg => rw [fallbackByBloodGroup, hbg] at h; exact mostRecentActive_mem h

theorem resolveRequest_spec {now : Int} {requestId : Option Nat} {loc : LocationRecord}
    {dRec : Option Donor} {reqs : List BloodRequest} {nextId : Nat}
    {b : BloodRequest} {reqs2 : List BloodRequest} {next2 : Nat}
    (h : resolveRequest now requestId loc dRec reqs nextId = (b, reqs2, next2)) :
    (b ∈ reqs ∧ reqs2 = reqs ∧ next2 = nextId) ∨
    (b = fallbackRequest now dRec nextId ∧ reqs2 = reqs ++ [b] ∧ next2 = nextId + 2) := by
  unfold resolveRequest at h
  cases hlk : lookupById reqs (actualRequestIdOf requestId loc) with
  | some r =>
    rw [hlk] at h
    simp only [Prod.mk.injEq] at h
    obtain ⟨rfl, rfl, rfl⟩ := h
    exact Or.inl ⟨lookupById_mem hlk, rfl, rfl⟩
  | none =>
    rw [hlk] at h
    cases hfb : fallbackByBloodGroup reqs dRec with
    | some r =>
      rw [hfb] at h
      simp only [Prod.mk.injEq] at h
      obtain ⟨rfl, rfl, rfl⟩ := h
      exact Or.inl ⟨fallbackByBloodGroup_mem hfb, rfl, rfl⟩
    | none =>
      rw [hfb] at h
      simp only [Prod.mk.injEq] at h
      obtain ⟨rfl, rfl, rfl⟩ := h
      exact Or.inr ⟨rfl, rfl, rfl⟩

/-- The fabricated fallback request satisfies the ledger invariants. -/
theorem fallbackRequest_inv (now : Int) (dRec : Option Donor) (nextId : Nat) :
    (fallbackRequest now dRec nextId).confirmedUnits ≤ (fallbackRequest now dRec nextId).quantity ∧
    (fallbackRequest now dRec nextId).status = ReqStatus.active ∧
    (fallbackRequest now dRec nextId).id = nextId ∧
    (fallbackRequest now dRec nextId).requiredBy = some (now + 24 * 60 * 60 * 1000) := by
  exact ⟨Nat.zero_le 1, rfl, rfl, rfl⟩

/-! ### Guard lemmas -/

theorem reserveGuard_spec {rid : Nat} {token : Option String} {r : BloodRequest}
    (h : reserveGuard rid token r = true) :
    r.id = rid ∧ r.status = ReqStatus.active ∧ r.confirmedUnits < r.quantity := by
  unfold reserveGuard at h
  simp only [Bool.and_eq_true, decide_eq_true_eq] at h
  exact ⟨h.1.1.1, h.1.1.2, h.1.2⟩

theorem reserveGuard_false_of_nonactive {rid : Nat} {token : Option String}
    {r : BloodRequest} (h : r.status ≠ ReqStatus.active) :
    reserveGuard rid token r = false := by
  unfold reserveGuard
  simp [h]

theorem expiryDue_spec {now : Int} {b : BloodRequest} (h : expiryDue now b = true) :
    b.status = ReqStatus.active ∧ ∃ rb, b.requiredBy = some rb ∧ rb < now := by
  unfold expiryDue at h
  simp only [Bool.and_eq_true, decide_eq_true_eq] at h
  refine ⟨h.1, ?_⟩
  cases hrb : b.requiredBy with
  | none => rw [hrb] at h; simp at h
  | some rb =>
    rw [hrb] at h
    exact ⟨rb, rfl, by simpa using h.2⟩

theorem expiryDue_false_of_nonactive {now : Int} {b : BloodRequest}
    (h : b.status ≠ ReqStatus.active) : expiryDue now b = false := by
  unfold expiryDue
  simp [h]

/-! ### Branch equations for `finishDonation` -/

theorem finishDonation_expiry_eq {now : Int} {did : String} {token : Option String}
    {b : BloodRequest} {dn : DonationHistory} {st4 : ServerState}
    (hdue : expiryDue now b = true) :
    finishDonation now did token b dn st4 =
      (Outcome.requestExpired,
       { st4 with
         requests :=
           updateFirst (fun r => decide (r.id = b.id))
             (fun _ => { b with status := ReqStatus.expired, activeTokens := [] })
             st4.requests
         processingLock := st4.processingLock.erase did }) := by
  unfold finishDonation
  rw [hdue, if_pos rfl]

theorem finishDonation_conflict_eq {now : Int} {did : String} {token : Option String}
    {b : BloodRequest} {dn : DonationHistory} {st4 : ServerState}
    (hdue : expiryDue now b = false)
    (hfind : st4.requests.find? (reserveGuard b.id token) = none) :
    finishDonation now did token b dn st4 =
      (Outcome.reservationConflict,
       { st4 with processingLock := st4.processingLock.erase did }) := by
  unfold finishDonation
  rw [hdue, if_neg Bool.false_ne_true, hfind]

theorem finishDonation_success_eq {now : Int} {did : String} {token : Option String}
    {b : BloodRequest} {dn : DonationHistory} {st4 : ServerState} {y : BloodRequest}
    (hdue : expiryDue now b = false)
    (hfind : st4.requests.find? (reserveGuard b.id token) = some y) :
    finishDonation now did token b dn st4 =
      (Outcome.success dn,
       { st4 with
         requests :=
           if y.quantity ≤ y.confirmedUnits + 1 then
             updateFirst (fun r => decide (r.id = y.id))
               (fun _ =>
                 { y with
                   confirmedUnits := y.confirmedUnits + 1
                   status := ReqStatus.fulfilled
                   fulfilledAt := some now
                   activeTokens := []
                   batchInProgress := false })
               (updateFirst (reserveGuard b.id token)
                 (fun r => { r with confirmedUnits := r.confirmedUnits + 1 }) st4.requests)
           else
             updateFirst (reserveGuard b.id token)
               (fun r => { r with confirmedUnits := r.confirmedUnits + 1 }) st4.requests
         locations := st4.locations.eraseP (fun l => decide (l.donorId = did)) }) := by
  unfold finishDonation
  rw [hdue, if_neg Bool.false_ne_true, hfind]

theorem updateFirst_middle {α : Type} (p : α → Bool) (g : α → α) (l₁ l₂ : List α) (z : α)
    (h1 : ∀ x ∈ l₁, p x = false) (hz : p z = true) :
    updateFirst p g (l₁ ++ z :: l₂) = l₁ ++ g z :: l₂ := by
  induction l₁ with
  | nil => simp [updateFirst, hz]
  | cons a l₁ ih =>
    have ha := h1 a (List.mem_cons_self a l₁)
    simp only [List.cons_append, updateFirst, ha, if_neg Bool.false_ne_true]
    exact congrArg (a :: ·) (ih (fun x hx => h1 x (List.mem_cons_of_mem a hx)))

/-! ### Derived facts about `finishDonation` -/

theorem finishDonation_frame (now : Int) (did : String) (token : Option String)
    (b : BloodRequest) (dn : DonationHistory) (st4 : ServerState) :
    (finishDonation now did token b dn st4).2.history = st4.history ∧
    (finishDonation now did token b dn st4).2.donors = st4.donors ∧
    (finishDonation now did token b dn st4).2.nextId = st4.nextId := by
  cases hdue : expiryDue now b with
  | true => rw [finishDonation_expiry_eq hdue]; exact ⟨rfl, rfl, rfl⟩
  | false =>
    cases hfind : st4.requests.find? (reserveGuard b.id token) with
    | none => rw [finishDonation_conflict_eq hdue hfind]; exact ⟨rfl, rfl, rfl⟩
    | some y => rw [finishDonation_success_eq hdue hfind]; exact ⟨rfl, rfl, rfl⟩

theorem finishDonation_outcome (now : Int) (did : String) (token : Option String)
    (b : BloodRequest) (dn : DonationHistory) (st4 : ServerState) :
    (finishDonation now did token b dn st4).1 = Outcome.requestExpired ∨
    (finishDonation now did token b dn st4).1 = Outcome.reservationConflict ∨
    (finishDonation now did token b dn st4).1 = Outcome.success dn := by
  cases hdue : expiryDue now b with
  | true => rw [finishDonation_expiry_eq hdue]; exact Or.inl rfl
  | false =>
    cases hfind : st4.requests.find? (reserveGuard b.id token) with
    | none => rw [finishDonation_conflict_eq hdue hfind]; exact Or.inr (Or.inl rfl)
    | some y => rw [finishDonation_success_eq hdue hfind]; exact Or.inr (Or.inr rfl)

theorem finishDonation_lock (now : Int) (did : String) (token : Option String)
    (b : BloodRequest) (dn : DonationHistory) (st4 : ServerState) :
    ((finishDonation now did token b dn st4).1 = Outcome.requestExpired ∨
       (finishDonation now did token b dn st4).1 = Outcome.reservationConflict →
       (finishDonation now did token b dn st4).2.processingLock =
         st4.processingLock.erase did) ∧
    (∀ d, (finishDonation now did token b dn st4).1 = Outcome.success d →
       (finishDonation now did token b dn st4).2.processingLock = st4.processingLock) := by
  cases hdue : expiryDue now b with
  | true =>
    rw [finishDonation_expiry_eq hdue]
    exact ⟨fun _ => rfl, fun d hd => by cases hd⟩
  | false =>
    cases hfind : st4.requests.find? (reserveGuard b.id token) with
    | none =>
      rw [finishDonation_conflict_eq hdue hfind]
      exact ⟨fun _ => rfl, fun d hd => by cases hd⟩
    | some y =>
      rw [finishDonation_success_eq hdue hfind]
      refine ⟨fun h => ?_, fun d hd => rfl⟩
      rcases h with h | h <;> cases h

theorem finishDonation_locations (now : Int) (did : String) (token : Option String)
    (b : BloodRequest) (dn : DonationHistory) (st4 : ServerState) :
    ((finishDonation now did token b dn st4).1 = Outcome.requestExpired ∨
       (finishDonation now did token b dn st4).1 = Outcome.reservationConflict →
       (finishDonation now did token b dn st4).2.locations = st4.locations) ∧
    (∀ d, (finishDonation now did token b dn st4).1 = Outcome.success d →
       (finishDonation now did token b dn st4).2.locations =
         st4.locations.eraseP (fun l => decide (l.donorId = did))) := by
  cases hdue : expiryDue now b with
  | true =>
    rw [finishDonation_expiry_eq hdue]
    exact ⟨fun _ => rfl, fun d hd => by cases hd⟩
  | false =>
    cases hfind : st4.requests.find? (reserveGuard b.id token) with
    | none =>
      rw [finishDonation_conflict_eq hdue hfind]
      exact ⟨fun _ => rfl, fun d hd => by cases hd⟩
    | some y =>
      rw [finishDonation_success_eq hdue hfind]
      refine ⟨fun h => ?_, fun d hd => rfl⟩
      rcases h with h | h <;> cases h

theorem finishDonation_unitsInv (now : Int) (did : String) (token : Option String)
    (b : BloodRequest) (dn : DonationHistory) (st4 : ServerState)
    (h : UnitsInv st4.requests) (hb : b.confirmedUnits ≤ b.quantity) :
    UnitsInv (finishDonation now did token b dn st4).2.requests := by
  cases hdue : expiryDue now b with
  | true =>
    rw [finishDonation_expiry_eq hdue]
    exact unitsInv_updateFirst h (fun y hy hpy => hb)
  | false =>
    cases hfind : st4.requests.find? (reserveGuard b.id token) with
    | none => rw [finishDonation_conflict_eq hdue hfind]; exact h
    | some y =>
      rw [finishDonation_success_eq hdue hfind]
      have h5 : UnitsInv (updateFirst (reserveGuard b.id token)
          (fun r => { r with confirmedUnits := r.confirmedUnits + 1 }) st4.requests) := by
        refine unitsInv_updateFirst h (fun z hz hpz => ?_)
        obtain ⟨_, _, hlt⟩ := reserveGuard_spec hpz
        exact hlt
      by_cases hq : y.quantity ≤ y.confirmedUnits + 1
      · simp only [if_pos hq]
        refine unitsInv_updateFirst h5 (fun z hz hpz => ?_)
        obtain ⟨_, _, hlt⟩ := reserveGuard_spec (List.find?_some hfind)
        exact hlt
      · simp only [if_neg hq]
        exact h5

theorem finishDonation_tokensInv (now : Int) (did : String) (token : Option String)
    (b : BloodRequest) (dn : DonationHistory) (st4 : ServerState)
    (h : TokensInv st4.requests) :
    TokensInv (finishDonation now did token b dn st4).2.requests := by
  cases hdue : expiryDue now b with
  | true =>
    rw [finishDonation_expiry_eq hdue]
    exact tokensInv_updateFirst h (fun y hy hpy hst => rfl)
  | false =>
    cases hfind : st4.requests.find? (reserveGuard b.id token) with
    | none => rw [finishDonation_conflict_eq hdue hfind]; exact h
    | some y =>
      rw [finishDonation_success_eq hdue hfind]
      have h5 : TokensInv (updateFirst (reserveGuard b.id token)
          (fun r => { r with confirmedUnits := r.confirmedUnits + 1 }) st4.requests) := by
        refine tokensInv_updateFirst h (fun z hz hpz hst => ?_)
        obtain ⟨_, hact, _⟩ := reserveGuard_spec hpz
        exact absurd hact hst
      by_cases hq : y.quantity ≤ y.confirmedUnits + 1
      · simp only [if_pos hq]
        exact tokensInv_updateFirst h5 (fun z hz hpz hst => rfl)
      · simp only [if_neg hq]
        exact h5

theorem finishDonation_frozen (now : Int) (did : String) (token : Option String)
    (b : BloodRequest) (dn : DonationHistory) (st4 : ServerState)
    (hn : (st4.requests.map BloodRequest.id).Nodup) (hb : b ∈ st4.requests) :
    ∀ r ∈ st4.requests, r.status ≠ ReqStatus.active →
      r ∈ (finishDonation now did token b dn st4).2.requests := by
  intro r hr hstat
  cases hdue : expiryDue now b with
  | true =>
    rw [finishDonation_expiry_eq hdue]
    refine mem_updateFirst_of_neg _ hr ?_
    rw [decide_eq_false_iff_not]
    intro he
    have hrb : r = b := List.inj_on_of_nodup_map hn hr hb he
    exact hstat (hrb ▸ (expiryDue_spec hdue).1)
  | false =>
    cases hfind : st4.requests.find? (reserveGuard b.id token) with
    | none => rw [finishDonation_conflict_eq hdue hfind]; exact hr
    | some y =>
      rw [finishDonation_success_eq hdue hfind]
      have hy : y ∈ st4.requests := List.mem_of_find?_eq_some hfind
      obtain ⟨_, hyact, _⟩ := reserveGuard_spec (List.find?_some hfind)
      have hr5 : r ∈ updateFirst (reserveGuard b.id token)
          (fun x => { x with confirmedUnits := x.confirmedUnits + 1 }) st4.requests :=
        mem_updateFirst_of_neg _ hr (reserveGuard_false_of_nonactive hstat)
      by_cases hq : y.quantity ≤ y.confirmedUnits + 1
      · simp only [if_pos hq]
        refine mem_updateFirst_of_neg _ hr5 ?_
        rw [decide_eq_false_iff_not]
        intro he
        have hry : r = y := List.inj_on_of_nodup_map hn hr hy he
        exact hstat (hry ▸ hyact)
      · simp only [if_neg hq]
        exact hr5

theorem finishDonation_nonactive_b (now : Int) (did : String) (token : Option String)
    (b : BloodRequest) (dn : DonationHistory) (st4 : ServerState)
    (hn : (st4.requests.map BloodRequest.id).Nodup) (hb : b ∈ st4.requests)
    (hst : b.status ≠ ReqStatus.active) :
    finishDonation now did token b dn st4 =
      (Outcome.reservationConflict,
       { st4 with processingLock := st4.processingLock.erase did }) := by
  have hdue : expiryDue now b = false := expiryDue_false_of_nonactive hst
  have hfind : st4.requests.find? (reserveGuard b.id token) = none := by
    rw [List.find?_eq_none]
    intro x hx hpx
    obtain ⟨hid, hact, _⟩ := reserveGuard_spec hpx
    have hxb : x = b := List.inj_on_of_nodup_map hn hx hb hid
    exact hst (hxb ▸ hact)
  exact finishDonation_conflict_eq hdue hfind

theorem finishDonation_closing (now : Int) (did : String) (token : Option String)
    (b : BloodRequest) (dn : DonationHistory) (st4 : ServerState)
    (hn : (st4.requests.map BloodRequest.id).Nodup) {y : BloodRequest}
    (hdue : expiryDue now b = false)
    (hfind : st4.requests.find? (reserveGuard b.id token) = some y) :
    ∃ r' ∈ (finishDonation now did token b dn st4).2.requests,
      r'.id = b.id ∧ r'.confirmedUnits = y.confirmedUnits + 1 ∧ r'.quantity = y.quantity ∧
      (r'.confirmedUnits = r'.quantity →
         r'.status = ReqStatus.fulfilled ∧ r'.fulfilledAt = some now ∧ r'.activeTokens = []) ∧
      (r'.confirmedUnits ≠ r'.quantity → r'.status = y.status) := by
  rw [finishDonation_success_eq hdue hfind]
  obtain ⟨hid, hact, hlt⟩ := reserveGuard_spec (List.find?_some hfind)
  obtain ⟨l₁, l₂, hsplit, hneg, hupd⟩ :=
    updateFirst_split (reserveGuard b.id token)
      (fun r => { r with confirmedUnits := r.confirmedUnits + 1 }) hfind
  have hneg1 : ∀ x ∈ l₁, (fun r => decide (r.id = y.id)) x = false := by
    intro x hx
    rw [decide_eq_false_iff_not]
    intro he
    have hxl : x ∈ st4.requests := by rw [hsplit]; exact List.mem_append_left _ hx
    have hyl : y ∈ st4.requests := List.mem_of_find?_eq_some hfind
    have hxy : x = y := List.inj_on_of_nodup_map hn hxl hyl he
    subst hxy
    -- x = y sits in l₁ and as the split midpoint: contradicts Nodup ids
    have hyid : x.id ∈ l₁.map BloodRequest.id := List.mem_map_of_mem _ hx
    rw [hsplit, List.map_append, List.map_cons, List.nodup_append] at hn
    exact hn.2.2 hyid (List.mem_cons_self _ _)
  by_cases hq : y.quantity ≤ y.confirmedUnits + 1
  · simp only [if_pos hq]
    rw [hupd, updateFirst_middle _ _ l₁ l₂ _ hneg1 (by simp)]
    refine ⟨_, List.mem_append_right _ (List.mem_cons_self _ _), hid ▸ rfl, rfl, rfl, ?_, ?_⟩
    · exact fun _ => ⟨rfl, rfl, rfl⟩
    · intro hne
      exact absurd (Nat.le_antisymm hlt hq) hne
  · simp only [if_neg hq]
    rw [hupd]
    refine ⟨_, List.mem_append_right _ (List.mem_cons_self _ _), hid ▸ rfl, rfl, rfl, ?_, ?_⟩
    · intro heq
      exact absurd (heq ▸ Nat.le_refl _) hq
    · exact fun _ => rfl

theorem finishDonation_expired_spec (now : Int) (did : String) (token : Option String)
    (b : BloodRequest) (dn : DonationHistory) (st4 : ServerState)
    (hn : (st4.requests.map BloodRequest.id).Nodup) (hb : b ∈ st4.requests)
    (hdue : expiryDue now b = true) :
    (finishDonation now did token b dn st4).1 = Outcome.requestExpired ∧
    (finishDonation now did token b dn st4).2.requests.find?
        (fun r => decide (r.id = b.id)) =
      some { b with status := ReqStatus.expired, activeTokens := [] } ∧
    (finishDonation now did token b dn st4).2.requests.map
        (fun r => (r.id, r.confirmedUnits)) =
      st4.requests.map (fun r => (r.id, r.confirmedUnits)) ∧
    (finishDonation now did token b dn st4).2.processingLock =
      st4.processingLock.erase did := by
  rw [finishDonation_expiry_eq hdue]
  have hfindb : st4.requests.find? (fun r => decide (r.id = b.id)) = some b :=
    find?_eq_of_nodup_key BloodRequest.id hn hb
  obtain ⟨l₁, l₂, hsplit, hneg, hupd⟩ :=
    updateFirst_split (fun r => decide (r.id = b.id))
      (fun _ => { b with status := ReqStatus.expired, activeTokens := [] }) hfindb
  refine ⟨rfl, ?_, ?_, rfl⟩
  · rw [hupd]
    exact find?_middle _ l₁ l₂ _ hneg (by simp)
  · rw [hupd, hsplit]
    simp

/-! ### Branch equations for `confirmDonation` -/

theorem confirmDonation_missing_eq {now : Int} {did : String} {dn : Option String}
    {rid : Option Nat} {st : ServerState} (h : did = "") :
    confirmDonation now did dn rid st = (Outcome.missingDonorId, st) := by
  unfold confirmDonation
  rw [if_pos h]

theorem confirmDonation_processing_eq {now : Int} {did : String} {dn : Option String}
    {rid : Option Nat} {st : ServerState} (h1 : ¬ did = "")
    (h2 : did ∈ st.processingLock) :
    confirmDonation now did dn rid st = (Outcome.alreadyProcessing, st) := by
  unfold confirmDonation
  rw [if_neg h1, if_pos h2]

theorem confirmDonation_donated_eq {now : Int} {did : String} {dn : Option String}
    {rid : Option Nat} {st : ServerState} (h1 : ¬ did = "")
    (h2 : did ∉ st.processingLock)
    (h3 : st.history.any (fun h => decide (h.donorId = did ∧ h.status = "completed")) = true) :
    confirmDonation now did dn rid st =
      (Outcome.alreadyDonated, { st with processingLock := did :: st.processingLock }) := by
  unfold confirmDonation
  rw [if_neg h1, if_neg h2, if_pos h3]

theorem confirmDonation_notFound_eq {now : Int} {did : String} {dn : Option String}
    {rid : Option Nat} {st : ServerState} (h1 : ¬ did = "")
    (h2 : did ∉ st.processingLock)
    (h3 : st.history.any (fun h => decide (h.donorId = did ∧ h.status = "completed")) = false)
    (h4 : st.locations.find? (fun l => decide (l.donorId = did)) = none) :
    confirmDonation now did dn rid st =
      (Outcome.donorNotFound,
       { st with processingLock := (did :: st.processingLock).erase did }) := by
  unfold confirmDonation
  rw [if_neg h1, if_neg h2, if_neg (by rw [h3]; exact Bool.false_ne_true)]
  simp only [h4]

theorem confirmDonation_run {now : Int} {did : String} {dn : Option String}
    {rid : Option Nat} {st : ServerState} {loc : LocationRecord}
    {b : BloodRequest} {reqs2 : List BloodRequest} {next2 : Nat}
    (h1 : ¬ did = "") (h2 : did ∉ st.processingLock)
    (h3 : st.history.any (fun h => decide (h.donorId = did ∧ h.status = "completed")) = false)
    (h4 : st.locations.find? (fun l => decide (l.donorId = did)) = some loc)
    (h5 : resolveRequest now rid loc (resolveDonor st.donors did loc) st.requests st.nextId =
      (b, reqs2, next2)) :
    confirmDonation now did dn rid st =
      finishDonation now did (optStr loc.token) b
        (mkDonation now did dn (resolveDonor st.donors did loc) loc b)
        { st with
          processingLock := did :: st.processingLock
          requests := reqs2
          nextId := next2
          history := st.history ++ [mkDonation now did dn (resolveDonor st.donors did loc) loc b]
          donors := updateLastDonation now did (resolveDonor st.donors did loc) st.donors } := by
  unfold confirmDonation
  rw [if_neg h1, if_neg h2, if_neg (by rw [h3]; exact Bool.false_ne_true)]
  simp only [h4, h5]

/-! ### Preservation through resolution -/

theorem resolveRequest_preserves {now : Int} {rid : Option Nat} {loc : LocationRecord}
    {dRec : Option Donor} {reqs : List BloodRequest} {nextId : Nat}
    {b : BloodRequest} {reqs2 : List BloodRequest} {next2 : Nat}
    (h : resolveRequest now rid loc dRec reqs nextId = (b, reqs2, next2)) :
    (UnitsInv reqs → UnitsInv reqs2) ∧
    (TokensInv reqs → TokensInv reqs2) ∧
    (UnitsInv reqs → b.confirmedUnits ≤ b.quantity) ∧
    (IdsOk reqs nextId →
       (reqs2.map BloodRequest.id).Nodup ∧ b ∈ reqs2 ∧ ∀ r ∈ reqs, r ∈ reqs2) := by
  rcases resolveRequest_spec h with ⟨hb, rfl, rfl⟩ | ⟨hbeq, rfl, rfl⟩
  · exact ⟨id, id, fun hu => hu b hb, fun hids => ⟨hids.1, hb, fun r hr => hr⟩⟩
  · subst hbeq
    refine ⟨?_, ?_, ?_, ?_⟩
    · intro hu r hr
      rcases List.mem_append.mp hr with hr' | hr'
      · exact hu r hr'
      · rw [List.mem_singleton.mp hr']
        exact (fallbackRequest_inv now dRec nextId).1
    · intro ht r hr hst
      rcases List.mem_append.mp hr with hr' | hr'
      · exact ht r hr' hst
      · rw [List.mem_singleton.mp hr'] at hst
        exact absurd (fallbackRequest_inv now dRec nextId).2.1 hst
    · exact fun _ => (fallbackRequest_inv now dRec nextId).1
    · intro hids
      refine ⟨?_, List.mem_append_right _ (List.mem_singleton_self _), fun r hr =>
        List.mem_append_left _ hr⟩
      rw [List.map_append]
      refine List.Nodup.append hids.1 (by simp) ?_
      intro a ha hb'
      simp only [List.map_cons, List.map_nil, List.mem_singleton] at hb'
      rcases List.mem_map.mp ha with ⟨r, hr, rfl⟩
      have hlt := hids.2 r hr
      rw [hb'] at hlt
      have : (fallbackRequest now dRec nextId).id = nextId :=
        (fallbackRequest_inv now dRec nextId).2.2.1
      rw [this] at hlt
      exact Nat.lt_irrefl _ hlt

/-- Single-step preservation of the counter invariant by `confirmDonation`. -/
theorem confirmDonation_step_unitsInv (now : Int) (did : String) (dn : Option String)
    (rid : Option Nat) (st : ServerState) (h : UnitsInv st.requests) :
    UnitsInv (confirmDonation now did dn rid st).2.requests := by
  by_cases h1 : did = ""
  · rw [confirmDonation_missing_eq h1]; exact h
  by_cases h2 : did ∈ st.processingLock
  · rw [confirmDonation_processing_eq h1 h2]; exact h
  cases h3 : st.history.any (fun x => decide (x.donorId = did ∧ x.status = "completed")) with
  | true => rw [confirmDonation_donated_eq h1 h2 h3]; exact h
  | false =>
    cases h4 : st.locations.find? (fun l => decide (l.donorId = did)) with
    | none => rw [confirmDonation_notFound_eq h1 h2 h3 h4]; exact h
    | some loc =>
      rcases h5 : resolveRequest now rid loc (resolveDonor st.donors did loc)
          st.requests st.nextId with ⟨b, reqs2, next2⟩
      rw [confirmDonation_run h1 h2 h3 h4 h5]
      obtain ⟨hu2, _, hbu, _⟩ := resolveRequest_preserves h5
      exact finishDonation_unitsInv _ _ _ _ _ _ (hu2 h) (hbu h)

/-- C1: for every blood request, `confirmedUnits` never exceeds
`quantity`.  The only operation of the embedding that increments
`confirmedUnits` is the single guarded conditional update inside
`confirmDonation` (`reserveGuard`: id match, `status = active`,
`confirmedUnits < quantity`, and token membership unless the token is
absent or carries the `DIRECT_` sentinel), so every sequence of
`confirmDonation` calls started from a state with
`confirmedUnits ≤ quantity` preserves `0 ≤ confirmedUnits ≤ quantity`
(the lower bound holds because counters are naturals). -/
theorem confirmedUnits_never_exceeds_quantity (calls : List CallInput) (st : ServerState)
    (h : ∀ r ∈ st.requests, r.confirmedUnits ≤ r.quantity) :
    ∀ r ∈ (applyCalls calls st).requests, r.confirmedUnits ≤ r.quantity := by
  induction calls generalizing st with
  | nil => exact h
  | cons c cs ih =>
    rw [applyCalls, List.foldl_cons]
    exact ih _ (confirmDonation_step_unitsInv c.now c.donorId c.donorName c.requestId st h)

/-- Witness for C1: a concrete two-call run against a quantity-1
request; the hypothesis and the preserved invariant are decided on the
final state. -/
theorem confirmedUnits_never_exceeds_quantity_witness :
    List.all (applyCalls
        [{ now := 0, donorId := "D1", donorName := none, requestId := some 1 },
         { now := 0, donorId := "D2", donorName := none, requestId := some 1 }]
        { requests := [{ id := 1, hospitalId := 2, bloodGroup := "O+", quantity := 1,
                         confirmedUnits := 0, status := ReqStatus.active,
                         requiredBy := some 100, activeTokens := ["T1"], createdAt := 0,
                         fulfilledAt := none, batchInProgress := false }]
          donors := []
          locations := [{ donorId := "D1", userName := none, mobileNumber := none,
                          requestId := none, token := some "T1", address := none,
                          latitude := none, longitude := none, timestamp := 0 },
                        { donorId := "D2", userName := none, mobileNumber := none,
                          requestId := none, token := some "T1", address := none,
                          latitude := none, longitude := none, timestamp := 0 }]
          history := []
          processingLock := []
          nextId := 10 }).requests
      (fun r => decide (r.confirmedUnits ≤ r.quantity)) = true :=
  List.all_eq_true.mpr
    (fun r hr => decide_eq_true (confirmedUnits_never_exceeds_quantity _ _ (by decide) r hr))

/-- C3: once a request's status is non-active (in particular
`fulfilled`), it stays closed.  Under well-formed ids and the ledger
invariants: (i) the empty-token invariant of non-active requests is
preserved by any `confirmDonation` call; (ii) every non-active request
survives the call unchanged (its `confirmedUnits`, `status` and
`activeTokens` are frozen); (iii) a call explicitly targeting a
non-active request never succeeds, regardless of token validity; and
(iv) on any successful reservation the resolved request is closed
exactly when the post-increment `confirmedUnits` equals `quantity`, in
which case `status` becomes `fulfilled`, the fulfillment time is
stamped and `activeTokens` is cleared, and otherwise it stays `active`. -/
theorem nonactive_requests_stay_closed (now : Int) (did : String) (dn : Option String)
    (rid : Option Nat) (st : ServerState)
    (hids : IdsOk st.requests st.nextId) (htok : TokensInv st.requests) :
    TokensInv (confirmDonation now did dn rid st).2.requests ∧
    (∀ r ∈ st.requests, r.status ≠ ReqStatus.active →
       r ∈ (confirmDonation now did dn rid st).2.requests) ∧
    (∀ r ∈ st.requests, rid = some r.id → r.status ≠ ReqStatus.active →
       ∀ d, (confirmDonation now did dn rid st).1 ≠ Outcome.success d) ∧
    (∀ d, (confirmDonation now did dn rid st).1 = Outcome.success d →
       ∃ r' ∈ (confirmDonation now did dn rid st).2.requests,
         r'.id = d.bloodRequestId ∧
         (r'.confirmedUnits = r'.quantity →
            r'.status = ReqStatus.fulfilled ∧ r'.fulfilledAt = some now ∧
            r'.activeTokens = []) ∧
         (r'.confirmedUnits ≠ r'.quantity → r'.status = ReqStatus.active)) := by
  by_cases h1 : did = ""
  · rw [confirmDonation_missing_eq h1]
    exact ⟨htok, fun r hr _ => hr, fun r _ _ _ d hd => Outcome.noConfusion hd,
      fun d hd => Outcome.noConfusion hd⟩
  by_cases h2 : did ∈ st.processingLock
  · rw [confirmDonation_processing_eq h1 h2]
    exact ⟨htok, fun r hr _ => hr, fun r _ _ _ d hd => Outcome.noConfusion hd,
      fun d hd => Outcome.noConfusion hd⟩
  cases h3 : st.history.any (fun x => decide (x.donorId = did ∧ x.status = "completed")) with
  | true =>
    rw [confirmDonation_donated_eq h1 h2 h3]
    exact ⟨htok, fun r hr _ => hr, fun r _ _ _ d hd => Outcome.noConfusion hd,
      fun d hd => Outcome.noConfusion hd⟩
  | false =>
    cases h4 : st.locations.find? (fun l => decide (l.donorId = did)) with
    | none =>
      rw [confirmDonation_notFound_eq h1 h2 h3 h4]
      exact ⟨htok, fun r hr _ => hr, fun r _ _ _ d hd => Outcome.noConfusion hd,
        fun d hd => Outcome.noConfusion hd⟩
    | some loc =>
      rcases h5 : resolveRequest now rid loc (resolveDonor st.donors did loc)
          st.requests st.nextId with ⟨b, reqs2, next2⟩
      rw [confirmDonation_run h1 h2 h3 h4 h5]
      obtain ⟨hu2, ht2, hbu, hwf⟩ := resolveRequest_preserves h5
      obtain ⟨hn2, hb2, hmem2⟩ := hwf hids
      refine ⟨?_, ?_, ?_, ?_⟩
      · exact finishDonation_tokensInv _ _ _ _ _ _ (ht2 htok)
      · intro r hr hst
        exact finishDonation_frozen _ _ _ _ _ _ hn2 hb2 r (hmem2 r hr) hst
      · intro r hr hrid hst d
        subst hrid
        have hres : resolveRequest now (some r.id) loc (resolveDonor st.donors did loc)
            st.requests st.nextId = (r, st.requests, st.nextId) := by
          simp only [resolveRequest, actualRequestIdOf, lookupById,
            find?_eq_of_nodup_key BloodRequest.id hids.1 hr]
        rw [hres] at h5
        simp only [Prod.mk.injEq] at h5
        obtain ⟨rfl, rfl, rfl⟩ := h5
        rw [finishDonation_nonactive_b now did (optStr loc.token) r
          (mkDonation now did dn (resolveDonor st.donors did loc) loc r)
          { st with
            processingLock := did :: st.processingLock
            requests := st.requests
            nextId := st.nextId
            history := st.history ++
              [mkDonation now did dn (resolveDonor st.donors did loc) loc r]
            donors := updateLastDonation now did (resolveDonor st.donors did loc) st.donors }
          hn2 hb2 hst]
        exact fun hd => Outcome.noConfusion hd
      · intro d hd
        cases hdue : expiryDue now b with
        | true =>
          rw [finishDonation_expiry_eq hdue] at hd
          exact Outcome.noConfusion hd
        | false =>
          cases hfind : reqs2.find? (reserveGuard b.id (optStr loc.token)) with
          | none =>
            rw [finishDonation_conflict_eq hdue hfind] at hd
            exact Outcome.noConfusion hd
          | some y =>
            rw [finishDonation_success_eq hdue hfind] at hd
            obtain rfl : mkDonation now did dn (resolveDonor st.donors did loc) loc b = d := by
              injection hd
            obtain ⟨r', hr'mem, hrid', hcu', hq', hful, hnotful⟩ :=
              finishDonation_closing now did (optStr loc.token) b
                (mkDonation now did dn (resolveDonor st.donors did loc) loc b)
                { st with
                  processingLock := did :: st.processingLock
                  requests := reqs2
                  nextId := next2
                  history := st.history ++
                    [mkDonation now did dn (resolveDonor st.donors did loc) loc b]
                  donors := updateLastDonation now did (resolveDonor st.donors did loc)
                    st.donors }
                hn2 hdue hfind
            refine ⟨r', hr'mem, hrid', hful, ?_⟩
            intro hne
            obtain ⟨_, hyact, _⟩ := reserveGuard_spec (List.find?_some hfind)
            exact (hnotful hne).trans hyact

/-- Concrete state for the C3 witness: a single already-fulfilled
quantity-1 request with empty `activeTokens`. -/
def c3State : ServerState :=
  { requests := [{ id := 1, hospitalId := 2, bloodGroup := "O+", quantity := 1,
                   confirmedUnits := 1, status := ReqStatus.fulfilled, requiredBy := some 100,
                   activeTokens := [], createdAt := 0, fulfilledAt := some 50,
                   batchInProgress := false }]
    donors := []
    locations := []
    history := []
    processingLock := []
    nextId := 10 }

/-- Witness for C3: the hypotheses hold of `c3State` and the conclusion
follows by applying the theorem at that state. -/
theorem nonactive_requests_stay_closed_witness :
    IdsOk c3State.requests c3State.nextId ∧ TokensInv c3State.requests ∧
    (TokensInv (confirmDonation 0 "D1" none (some 1) c3State).2.requests ∧
     (∀ r ∈ c3State.requests, r.status ≠ ReqStatus.active →
        r ∈ (confirmDonation 0 "D1" none (some 1) c3State).2.requests) ∧
     (∀ r ∈ c3State.requests, some 1 = some r.id → r.status ≠ ReqStatus.active →
        ∀ d, (confirmDonation 0 "D1" none (some 1) c3State).1 ≠ Outcome.success d) ∧
     (∀ d, (confirmDonation 0 "D1" none (some 1) c3State).1 = Outcome.success d →
        ∃ r' ∈ (confirmDonation 0 "D1" none (some 1) c3State).2.requests,
          r'.id = d.bloodRequestId ∧
          (r'.confirmedUnits = r'.quantity →
             r'.status = ReqStatus.fulfilled ∧ r'.fulfilledAt = some 0 ∧
             r'.activeTokens = []) ∧
          (r'.confirmedUnits ≠ r'.quantity → r'.status = ReqStatus.active))) :=
  ⟨⟨by decide, by decide⟩, by unfold TokensInv; decide,
   nonactive_requests_stay_closed 0 "D1" none (some 1) c3State ⟨by decide, by decide⟩
     (by unfold TokensInv; decide)⟩

/-- Concrete state for the C2 counterexample: the only request is
active but already at capacity (`confirmedUnits = quantity = 1`), and
donor D1 has a live location targeting it. -/
def c2State : ServerState :=
  { requests := [{ id := 1, hospitalId := 2, bloodGroup := "O+", quantity := 1,
                   confirmedUnits := 1, status := ReqStatus.active, requiredBy := none,
                   activeTokens := [], createdAt := 0, fulfilledAt := none,
                   batchInProgress := false }]
    donors := []
    locations := [{ donorId := "D1", userName := none, mobileNumber := none,
                    requestId := some 1, token := none, address := none,
                    latitude := none, longitude := none, timestamp := 0 }]
    history := []
    processingLock := []
    nextId := 10 }

/-- Counterexample to C2 as stated: the conditional ledger update's
guard fails (`confirmedUnits < quantity` is false), the call fails with
the reservation-conflict outcome — yet a Donation History record with
status `completed` HAS been written by that very call, because
`DonationHistory.create` runs before the atomic update in
`markDonation.js`. -/
theorem history_written_on_conflict_cex :
    (confirmDonation 5 "D1" none none c2State).1 = Outcome.reservationConflict ∧
    (confirmDonation 5 "D1" none none c2State).2.history.map DonationHistory.status =
      ["completed"] := by
  exact ⟨by decide, by decide⟩

/-- C2 (amended): the Donation History write happens before the
reservation attempt, not after it.  Every call that reaches request
resolution (so also every call that then fails with `RequestExpired` or
`ReservationConflict`) appends exactly one history record with status
`completed`, and that record is not rolled back on failure; the
consumed Location Record is deleted only on a successful reservation
and is untouched on the two failure exits; calls that fail before
resolution (`missingDonorId`, `AlreadyProcessing`, `AlreadyDonated`,
`DonorNotFound`) write no history record. -/
theorem history_written_before_reservation (now : Int) (did : String) (dn : Option String)
    (rid : Option Nat) (st : ServerState) :
    ((confirmDonation now did dn rid st).1 = Outcome.requestExpired ∨
     (confirmDonation now did dn rid st).1 = Outcome.reservationConflict ∨
     (∃ d, (confirmDonation now did dn rid st).1 = Outcome.success d) →
       ∃ rec, (confirmDonation now did dn rid st).2.history = st.history ++ [rec] ∧
         rec.status = "completed") ∧
    ((confirmDonation now did dn rid st).1 = Outcome.requestExpired ∨
     (confirmDonation now did dn rid st).1 = Outcome.reservationConflict →
       (confirmDonation now did dn rid st).2.locations = st.locations) ∧
    (∀ d, (confirmDonation now did dn rid st).1 = Outcome.success d →
       (confirmDonation now did dn rid st).2.locations =
         st.locations.eraseP (fun l => decide (l.donorId = did))) ∧
    ((confirmDonation now did dn rid st).1 = Outcome.missingDonorId ∨
     (confirmDonation now did dn rid st).1 = Outcome.alreadyProcessing ∨
     (confirmDonation now did dn rid st).1 = Outcome.alreadyDonated ∨
     (confirmDonation now did dn rid st).1 = Outcome.donorNotFound →
       (confirmDonation now did dn rid st).2.history = st.history) := by
  by_cases h1 : did = ""
  · rw [confirmDonation_missing_eq h1]
    refine ⟨fun hc => ?_, fun hc => ?_, fun d hd => Outcome.noConfusion hd, fun _ => rfl⟩
    · rcases hc with hc | hc | ⟨d, hc⟩ <;> exact Outcome.noConfusion hc
    · rcases hc with hc | hc <;> exact Outcome.noConfusion hc
  by_cases h2 : did ∈ st.processingLock
  · rw [confirmDonation_processing_eq h1 h2]
    refine ⟨fun hc => ?_, fun hc => ?_, fun d hd => Outcome.noConfusion hd, fun _ => rfl⟩
    · rcases hc with hc | hc | ⟨d, hc⟩ <;> exact Outcome.noConfusion hc
    · rcases hc with hc | hc <;> exact Outcome.noConfusion hc
  cases h3 : st.history.any (fun x => decide (x.donorId = did ∧ x.status = "completed")) with
  | true =>
    rw [confirmDonation_donated_eq h1 h2 h3]
    refine ⟨fun hc => ?_, fun hc => ?_, fun d hd => Outcome.noConfusion hd, fun _ => rfl⟩
    · rcases hc with hc | hc | ⟨d, hc⟩ <;> exact Outcome.noConfusion hc
    · rcases hc with hc | hc <;> exact Outcome.noConfusion hc
  | false =>
    cases h4 : st.locations.find? (fun l => decide (l.donorId = did)) with
    | none =>
      rw [confirmDonation_notFound_eq h1 h2 h3 h4]
      refine ⟨fun hc => ?_, fun hc => ?_, fun d hd => Outcome.noConfusion hd, fun _ => rfl⟩
      · rcases hc with hc | hc | ⟨d, hc⟩ <;> exact Outcome.noConfusion hc
      · rcases hc with hc | hc <;> exact Outcome.noConfusion hc
    | some loc =>
      rcases h5 : resolveRequest now rid loc (resolveDonor st.donors did loc)
          st.requests st.nextId with ⟨b, reqs2, next2⟩
      rw [confirmDonation_run h1 h2 h3 h4 h5]
      obtain ⟨hhist, hdon, _⟩ := finishDonation_frame now did (optStr loc.token) b
        (mkDonation now did dn (resolveDonor st.donors did loc) loc b)
        { st with
          processingLock := did :: st.processingLock
          requests := reqs2
          nextId := next2
          history := st.history ++ [mkDonation now did dn (resolveDonor st.donors did loc) loc b]
          donors := updateLastDonation now did (resolveDonor st.donors did loc) st.donors }
      obtain ⟨hlocf, hlocs⟩ := finishDonation_locations now did (optStr loc.token) b
        (mkDonation now did dn (resolveDonor st.donors did loc) loc b)
        { st with
          processingLock := did :: st.processingLock
          requests := reqs2
          nextId := next2
          history := st.history ++ [mkDonation now did dn (resolveDonor st.donors did loc) loc b]
          donors := updateLastDonation now did (resolveDonor st.donors did loc) st.donors }
      refine ⟨fun _ => ?_, hlocf, hlocs, fun hc => ?_⟩
      · exact ⟨mkDonation now did dn (resolveDonor st.donors did loc) loc b, hhist, rfl⟩
      · rcases finishDonation_outcome now did (optStr loc.token) b
            (mkDonation now did dn (resolveDonor st.donors did loc) loc b)
            { st with
              processingLock := did :: st.processingLock
              requests := reqs2
              nextId := next2
              history := st.history ++
                [mkDonation now did dn (resolveDonor st.donors did loc) loc b]
              donors := updateLastDonation now did (resolveDonor st.donors did loc)
                st.donors } with ho | ho | ho <;>
          rcases hc with hc | hc | hc | hc <;>
            rw [ho] at hc <;> exact Outcome.noConfusion hc

/-- Concrete state for the C2 witness: a token-guarded quantity-1
active request and a matching live location for D1. -/
def c2SuccessState : ServerState :=
  { requests := [{ id := 1, hospitalId := 2, bloodGroup := "O+", quantity := 1,
                   confirmedUnits := 0, status := ReqStatus.active, requiredBy := some 100,
                   activeTokens := ["T1"], createdAt := 0, fulfilledAt := none,
                   batchInProgress := false }]
    donors := []
    locations := [{ donorId := "D1", userName := some "Dee", mobileNumber := none,
                    requestId := some 1, token := some "T1", address := none,
                    latitude := none, longitude := none, timestamp := 0 }]
    history := []
    processingLock := []
    nextId := 10 }

/-- Witness for C2 (amended), at a successful concrete reservation:
exactly one completed history record is appended and the consumed
location is evicted. -/
theorem history_written_before_reservation_witness :
    (∃ rec, (confirmDonation 0 "D1" none (some 1) c2SuccessState).2.history =
        c2SuccessState.history ++ [rec] ∧ rec.status = "completed") ∧
    (∀ d, (confirmDonation 0 "D1" none (some 1) c2SuccessState).1 = Outcome.success d →
       (confirmDonation 0 "D1" none (some 1) c2SuccessState).2.locations =
         c2SuccessState.locations.eraseP (fun l => decide (l.donorId = "D1"))) :=
  ⟨(history_written_before_reservation 0 "D1" none (some 1) c2SuccessState).1
     (Or.inr (Or.inr ⟨_, rfl⟩)),
   (history_written_before_reservation 0 "D1" none (some 1) c2SuccessState).2.2.1⟩

/-- Concrete state for the C4 counterexample: donor D1 already has a
completed Donation History record; the guard set is empty. -/
def c4State : ServerState :=
  { requests := []
    donors := []
    locations := []
    history := [{ donorId := "D1", bloodRequestId := 1, hospitalId := 2,
                  donorName := "Dee", donorPhone := "123", donorBloodGroup := some "O+",
                  status := "completed", completedAt := 0, lat := 0, lng := 0,
                  address := "A", notes := "n" }]
    processingLock := []
    nextId := 10 }

/-- Counterexample to C4 as stated: on the `AlreadyDonated` exit path
the guard entry is NOT removed — the call returns `AlreadyDonated` and
the donor id stays in the process-wide guard set (the source comments
"DON'T delete lock - keep it permanently for already donated donors"). -/
theorem lock_kept_on_alreadyDonated_cex :
    (confirmDonation 5 "D1" none none c4State).1 = Outcome.alreadyDonated ∧
    "D1" ∈ (confirmDonation 5 "D1" none none c4State).2.processingLock := by
  exact ⟨by decide, by decide⟩

/-- C4 (amended): `confirmDonation` fails with `AlreadyProcessing` when
the donor id is already in the guard set, leaving the state untouched;
the guard entry is retained after a successful reservation AND after an
`AlreadyDonated` exit; it is removed on the `DonorNotFound`,
`RequestExpired` and `ReservationConflict` exit paths, so a retry for
that donor id is possible there. -/
theorem processingLock_release_policy (now : Int) (did : String) (dn : Option String)
    (rid : Option Nat) (st : ServerState) :
    (¬ did = "" → did ∈ st.processingLock →
       (confirmDonation now did dn rid st).1 = Outcome.alreadyProcessing ∧
       (confirmDonation now did dn rid st).2 = st) ∧
    ((confirmDonation now did dn rid st).1 = Outcome.alreadyDonated →
       (confirmDonation now did dn rid st).2.processingLock = did :: st.processingLock) ∧
    (∀ d, (confirmDonation now did dn rid st).1 = Outcome.success d →
       did ∈ (confirmDonation now did dn rid st).2.processingLock) ∧
    ((confirmDonation now did dn rid st).1 = Outcome.donorNotFound ∨
     (confirmDonation now did dn rid st).1 = Outcome.requestExpired ∨
     (confirmDonation now did dn rid st).1 = Outcome.reservationConflict →
       (confirmDonation now did dn rid st).2.processingLock = st.processingLock) := by
  by_cases h1 : did = ""
  · rw [confirmDonation_missing_eq h1]
    refine ⟨fun hne _ => absurd h1 hne, fun hc => Outcome.noConfusion hc,
      fun d hd => Outcome.noConfusion hd, fun hc => ?_⟩
    rcases hc with hc | hc | hc <;> exact Outcome.noConfusion hc
  by_cases h2 : did ∈ st.processingLock
  · rw [confirmDonation_processing_eq h1 h2]
    refine ⟨fun _ _ => ⟨rfl, rfl⟩, fun hc => Outcome.noConfusion hc,
      fun d hd => Outcome.noConfusion hd, fun hc => ?_⟩
    rcases hc with hc | hc | hc <;> exact Outcome.noConfusion hc
  cases h3 : st.history.any (fun x => decide (x.donorId = did ∧ x.status = "completed")) with
  | true =>
    rw [confirmDonation_donated_eq h1 h2 h3]
    refine ⟨fun _ hmem => absurd hmem h2, fun _ => rfl,
      fun d hd => Outcome.noConfusion hd, fun hc => ?_⟩
    rcases hc with hc | hc | hc <;> exact Outcome.noConfusion hc
  | false =>
    cases h4 : st.locations.find? (fun l => decide (l.donorId = did)) with
    | none =>
      rw [confirmDonation_notFound_eq h1 h2 h3 h4]
      refine ⟨fun _ hmem => absurd hmem h2, fun hc => Outcome.noConfusion hc,
        fun d hd => Outcome.noConfusion hd, fun _ => List.erase_cons_head did _⟩
    | some loc =>
      rcases h5 : resolveRequest now rid loc (resolveDonor st.donors did loc)
          st.requests st.nextId with ⟨b, reqs2, next2⟩
      rw [confirmDonation_run h1 h2 h3 h4 h5]
      obtain ⟨hlf, hls⟩ := finishDonation_lock now did (optStr loc.token) b
        (mkDonation now did dn (resolveDonor st.donors did loc) loc b)
        { st with
          processingLock := did :: st.processingLock
          requests := reqs2
          nextId := next2
          history := st.history ++ [mkDonation now did dn (resolveDonor st.donors did loc) loc b]
          donors := updateLastDonation now did (resolveDonor st.donors did loc) st.donors }
      refine ⟨fun _ hmem => absurd hmem h2, fun hc => ?_, fun d hd => ?_, fun hc => ?_⟩
      · rcases finishDonation_outcome now did (optStr loc.token) b
            (mkDonation now did dn (resolveDonor st.donors did loc) loc b)
            { st with
              processingLock := did :: st.processingLock
              requests := reqs2
              nextId := next2
              history := st.history ++
                [mkDonation now did dn (resolveDonor st.donors did loc) loc b]
              donors := updateLastDonation now did (resolveDonor st.donors did loc)
                st.donors } with ho | ho | ho <;> rw [ho] at hc <;>
          exact Outcome.noConfusion hc
      · rw [hls d hd]
        exact List.mem_cons_self did st.processingLock
      · rcases hc with hc | hc | hc
        · rcases finishDonation_outcome now did (optStr loc.token) b
              (mkDonation now did dn (resolveDonor st.donors did loc) loc b)
              { st with
                processingLock := did :: st.processingLock
                requests := reqs2
                nextId := next2
                history := st.history ++
                  [mkDonation now did dn (resolveDonor st.donors did loc) loc b]
                donors := updateLastDonation now did (resolveDonor st.donors did loc)
                  st.donors } with ho | ho | ho <;> rw [ho] at hc <;>
            exact Outcome.noConfusion hc
        · rw [hlf (Or.inl hc)]
          exact List.erase_cons_head did _
        · rw [hlf (Or.inr hc)]
          exact List.erase_cons_head did _

/-- Witness for C4 (amended): a donor id already in the guard set is
rejected with `AlreadyProcessing` and the state is unchanged. -/
theorem processingLock_release_policy_witness :
    (confirmDonation 5 "D1" none none
        { requests := [], donors := [], locations := [], history := [],
          processingLock := ["D1"], nextId := 0 }).1 = Outcome.alreadyProcessing :=
  ((processingLock_release_policy 5 "D1" none none
      { requests := [], donors := [], locations := [], history := [],
        processingLock := ["D1"], nextId := 0 }).1
    (by decide) (by decide)).1

/-- C5: a call whose resolved request is still `active` but whose
`requiredBy` deadline lies strictly in the past transitions that
request to `expired` with `activeTokens` cleared, returns the
`RequestExpired` failure, performs no reservation (every request keeps
its `confirmedUnits`), and releases the duplicate guard; a subsequent
read of the request by id shows status `expired` and empty
`activeTokens`. -/
theorem requestExpired_transition (now : Int) (did : String) (dn : Option String)
    (rid : Option Nat) (st : ServerState) (loc : LocationRecord)
    (b : BloodRequest) (reqs2 : List BloodRequest) (next2 : Nat)
    (hids : IdsOk st.requests st.nextId)
    (h1 : ¬ did = "") (h2 : did ∉ st.processingLock)
    (h3 : st.history.any (fun h => decide (h.donorId = did ∧ h.status = "completed")) = false)
    (h4 : st.locations.find? (fun l => decide (l.donorId = did)) = some loc)
    (h5 : resolveRequest now rid loc (resolveDonor st.donors did loc) st.requests st.nextId =
      (b, reqs2, next2))
    (hact : b.status = ReqStatus.active)
    (hrb : ∃ t, b.requiredBy = some t ∧ t < now) :
    (confirmDonation now did dn rid st).1 = Outcome.requestExpired ∧
    (confirmDonation now did dn rid st).2.requests.find? (fun r => decide (r.id = b.id)) =
      some { b with status := ReqStatus.expired, activeTokens := [] } ∧
    (confirmDonation now did dn rid st).2.requests.map (fun r => (r.id, r.confirmedUnits)) =
      st.requests.map (fun r => (r.id, r.confirmedUnits)) ∧
    did ∉ (confirmDonation now did dn rid st).2.processingLock := by
  obtain ⟨t, hbt, htlt⟩ := hrb
  have hdue : expiryDue now b = true := by
    unfold expiryDue
    rw [hbt]
    simp [hact, htlt]
  have hfound : b ∈ st.requests ∧ reqs2 = st.requests ∧ next2 = st.nextId := by
    rcases resolveRequest_spec h5 with h | ⟨hbeq, _, _⟩
    · exact h
    · exfalso
      have : b.requiredBy = some (now + 24 * 60 * 60 * 1000) := by
        rw [hbeq]
        exact (fallbackRequest_inv now (resolveDonor st.donors did loc) st.nextId).2.2.2
      rw [this] at hbt
      obtain rfl : (now + 24 * 60 * 60 * 1000) = t := Option.some.inj hbt
      omega
  obtain ⟨hbmem, rfl, rfl⟩ := hfound
  rw [confirmDonation_run h1 h2 h3 h4 h5]
  obtain ⟨ho, hf, hm, hl⟩ := finishDonation_expired_spec now did (optStr loc.token) b
    (mkDonation now did dn (resolveDonor st.donors did loc) loc b)
    { st with
      processingLock := did :: st.processingLock
      requests := st.requests
      nextId := st.nextId
      history := st.history ++ [mkDonation now did dn (resolveDonor st.donors did loc) loc b]
      donors := updateLastDonation now did (resolveDonor st.donors did loc) st.donors }
    hids.1 hbmem hdue
  refine ⟨ho, hf, hm, ?_⟩
  rw [hl, List.erase_cons_head did _]
  exact h2

/-- Concrete state for the C5 witness: an active request whose deadline
(10) is already past at call time (100), and a live location for D1
targeting it. -/
def c5State : ServerState :=
  { requests := [{ id := 1, hospitalId := 2, bloodGroup := "O+", quantity := 1,
                   confirmedUnits := 0, status := ReqStatus.active, requiredBy := some 10,
                   activeTokens := ["T1"], createdAt := 0, fulfilledAt := none,
                   batchInProgress := false }]
    donors := []
    locations := [{ donorId := "D1", userName := none, mobileNumber := none,
                    requestId := some 1, token := some "T1", address := none,
                    latitude := none, longitude := none, timestamp := 0 }]
    history := []
    processingLock := []
    nextId := 10 }

/-- Witness for C5: the concrete expired scenario yields
`RequestExpired`, flips the request to `expired` with cleared tokens,
increments nothing, and releases the guard. -/
theorem requestExpired_transition_witness :
    (confirmDonation 100 "D1" none none c5State).1 = Outcome.requestExpired ∧
    (confirmDonation 100 "D1" none none c5State).2.requests.find?
        (fun r => decide (r.id = 1)) =
      some { id := 1, hospitalId := 2, bloodGroup := "O+", quantity := 1,
             confirmedUnits := 0, status := ReqStatus.expired, requiredBy := some 10,
             activeTokens := [], createdAt := 0, fulfilledAt := none,
             batchInProgress := false } ∧
    (confirmDonation 100 "D1" none none c5State).2.requests.map
        (fun r => (r.id, r.confirmedUnits)) =
      c5State.requests.map (fun r => (r.id, r.confirmedUnits)) ∧
    "D1" ∉ (confirmDonation 100 "D1" none none c5State).2.processingLock :=
  requestExpired_transition 100 "D1" none none c5State
    { donorId := "D1", userName := none, mobileNumber := none, requestId := some 1,
      token := some "T1", address := none, latitude := none, longitude := none,
      timestamp := 0 }
    { id := 1, hospitalId := 2, bloodGroup := "O+", quantity := 1, confirmedUnits := 0,
      status := ReqStatus.active, requiredBy := some 10, activeTokens := ["T1"],
      createdAt := 0, fulfilledAt := none, batchInProgress := false }
    c5State.requests c5State.nextId
    ⟨by decide, by decide⟩ (by decide) (by decide) (by decide) (by decide) (by decide)
    (by decide) ⟨10, by decide, by decide⟩

/-- Concrete state for the C6 counterexample: D1's only location record
is 10 hours old (timestamp 0, call at t = 36000000 ms), far outside the
one-hour freshness window; an active request is available. -/
def c6State : ServerState :=
  { requests := [{ id := 1, hospitalId := 2, bloodGroup := "O+", quantity := 1,
                   confirmedUnits := 0, status := ReqStatus.active, requiredBy := none,
                   activeTokens := [], createdAt := 0, fulfilledAt := none,
                   batchInProgress := false }]
    donors := []
    locations := [{ donorId := "D1", userName := none, mobileNumber := none,
                    requestId := some 1, token := none, address := none,
                    latitude := none, longitude := none, timestamp := 0 }]
    history := []
    processingLock := []
    nextId := 10 }

/-- Counterexample to C6 as stated: the donor's only Location Record is
strictly older than the one-hour freshness window (`timestamp` is below
`now - 3600000`), yet `confirmDonation` does NOT fail with
`DonorNotFound` — it proceeds all the way to a successful reservation,
because the location lookup in `markDonation.js` has no timestamp
filter. -/
theorem stale_location_still_processed_cex :
    (∀ l ∈ c6State.locations, l.timestamp < 36000000 - 60 * 60 * 1000) ∧
    ∃ d, (confirmDonation 36000000 "D1" none none c6State).1 = Outcome.success d := by
  exact ⟨by decide, ⟨_, rfl⟩⟩

/-- C6 (amended): for a donor id that passes the duplicate-guard and
`AlreadyDonated` checks, `confirmDonation` fails with `DonorNotFound`
exactly when NO Location Record at all exists for that donor id — the
lookup ignores the record's age, so a stale record (older than the
one-hour display window) still proceeds to resolution and reservation. -/
theorem donorNotFound_iff_no_location (now : Int) (did : String) (dn : Option String)
    (rid : Option Nat) (st : ServerState)
    (h1 : ¬ did = "") (h2 : did ∉ st.processingLock)
    (h3 : st.history.any (fun h => decide (h.donorId = did ∧ h.status = "completed")) = false) :
    (confirmDonation now did dn rid st).1 = Outcome.donorNotFound ↔
      ∀ l ∈ st.locations, l.donorId ≠ did := by
  cases h4 : st.locations.find? (fun l => decide (l.donorId = did)) with
  | none =>
    rw [confirmDonation_notFound_eq h1 h2 h3 h4]
    have hall := List.find?_eq_none.mp h4
    constructor
    · intro _ l hl
      have := hall l hl
      simpa using this
    · intro _
      rfl
  | some loc =>
    rcases h5 : resolveRequest now rid loc (resolveDonor st.donors did loc)
        st.requests st.nextId with ⟨b, reqs2, next2⟩
    rw [confirmDonation_run h1 h2 h3 h4 h5]
    have hlocmem : loc ∈ st.locations := List.mem_of_find?_eq_some h4
    have hlocid : loc.donorId = did := by
      have := List.find?_some h4
      simpa using this
    constructor
    · intro hc
      exfalso
      rcases finishDonation_outcome now did (optStr loc.token) b
          (mkDonation now did dn (resolveDonor st.donors did loc) loc b)
          { st with
            processingLock := did :: st.processingLock
            requests := reqs2
            nextId := next2
            history := st.history ++
              [mkDonation now did dn (resolveDonor st.donors did loc) loc b]
            donors := updateLastDonation now did (resolveDonor st.donors did loc)
              st.donors } with ho | ho | ho <;> rw [ho] at hc <;>
        exact Outcome.noConfusion hc
    · intro hall
      exact absurd hlocid (hall loc hlocmem)

/-- Witness for C6 (amended): with no location record at all for D1 the
call is rejected with `DonorNotFound`. -/
theorem donorNotFound_iff_no_location_witness :
    (confirmDonation 0 "D1" none none
        { requests := [], donors := [], locations := [], history := [],
          processingLock := [], nextId := 0 }).1 = Outcome.donorNotFound :=
  (donorNotFound_iff_no_location 0 "D1" none none
      { requests := [], donors := [], locations := [], history := [],
        processingLock := [], nextId := 0 }
    (by decide) (by decide) (by decide)).mpr (by decide)

/-- Concrete state for the C7 counterexample: the location record
carries `requestId = 1` pointing at an existing active request, but the
caller supplies the dangling explicit id 99. -/
def c7State : ServerState :=
  { requests := [{ id := 1, hospitalId := 2, bloodGroup := "O+", quantity := 5,
                   confirmedUnits := 0, status := ReqStatus.active, requiredBy := none,
                   activeTokens := [], createdAt := 0, fulfilledAt := none,
                   batchInProgress := false }]
    donors := []
    locations := [{ donorId := "D1", userName := none, mobileNumber := none,
                    requestId := some 1, token := none, address := none,
                    latitude := none, longitude := none, timestamp := 0 }]
    history := []
    processingLock := []
    nextId := 10 }

/-- Counterexample to C7 as stated: with an explicit request id (99)
that resolves to no existing request, resolution does NOT fall back to
the request id carried on the Location Record (1, an existing active
request): the candidate id `requestId || locationRecord.requestId` is
computed once, so the call fabricates a brand-new request (id 10 = the
fresh counter) and reserves against it, leaving request 1 untouched. -/
theorem explicit_id_never_falls_back_cex :
    ∃ d, (confirmDonation 0 "D1" none (some 99) c7State).1 = Outcome.success d ∧
      d.bloodRequestId = 10 ∧ ¬ d.bloodRequestId = 1 ∧
      (∃ r ∈ (confirmDonation 0 "D1" none (some 99) c7State).2.requests,
         r.id = 1 ∧ r.status = ReqStatus.active ∧ r.confirmedUnits = 0) := by
  exact ⟨_, rfl, by decide, by decide, by decide⟩

/-- C7 (amended): `confirmDonation` resolves its target request from a
single candidate id — the explicitly supplied id when present (even if
it resolves to nothing), else the id carried on the Location Record —
looked up among the existing requests; if that yields no request, the
most-recently-created `active` request matching the resolved donor's
blood group is used; and only when both steps yield nothing is a new
`active` request created, with a placeholder hospital id, quantity 1
and a deadline 24 hours in the future. -/
theorem request_resolution_priority (now : Int) (requestId : Option Nat)
    (loc : LocationRecord) (dRec : Option Donor) (reqs : List BloodRequest) (nextId : Nat) :
    (∀ rid, requestId = some rid → actualRequestIdOf requestId loc = some rid) ∧
    (requestId = none → actualRequestIdOf requestId loc = loc.requestId) ∧
    (∀ r, lookupById reqs (actualRequestIdOf requestId loc) = some r →
       resolveRequest now requestId loc dRec reqs nextId = (r, reqs, nextId)) ∧
    (lookupById reqs (actualRequestIdOf requestId loc) = none →
       ∀ r, fallbackByBloodGroup reqs dRec = some r →
         resolveRequest now requestId loc dRec reqs nextId = (r, reqs, nextId)) ∧
    (lookupById reqs (actualRequestIdOf requestId loc) = none →
       fallbackByBloodGroup reqs dRec = none →
       resolveRequest now requestId loc dRec reqs nextId =
         (fallbackRequest now dRec nextId,
          reqs ++ [fallbackRequest now dRec nextId], nextId + 2)) ∧
    (fallbackRequest now dRec nextId).quantity = 1 ∧
    (fallbackRequest now dRec nextId).status = ReqStatus.active ∧
    (fallbackRequest now dRec nextId).requiredBy = some (now + 24 * 60 * 60 * 1000) ∧
    (fallbackRequest now dRec nextId).hospitalId = nextId + 1 := by
  refine ⟨?_, ?_, ?_, ?_, ?_, rfl, rfl, rfl, rfl⟩
  · intro rid hrid
    rw [hrid]
    rfl
  · intro hrid
    rw [hrid]
    rfl
  · intro r hlk
    unfold resolveRequest
    rw [hlk]
  · intro hlk r hfb
    unfold resolveRequest
    rw [hlk, hfb]
  · intro hlk hfb
    unfold resolveRequest
    rw [hlk, hfb]

/-- Witness for C7 (amended): with no candidate id resolving and no
donor blood group, resolution creates the fallback request. -/
theorem request_resolution_priority_witness :
    resolveRequest 0 (some 99)
      { donorId := "D1", userName := none, mobileNumber := none,
        requestId := some 1, token := none, address := none, latitude := none,
        longitude := none, timestamp := 0 } none [] 7 =
      (fallbackRequest 0 none 7, [] ++ [fallbackRequest 0 none 7], 7 + 2) :=
  (request_resolution_priority 0 (some 99)
      { donorId := "D1", userName := none, mobileNumber := none,
        requestId := some 1, token := none, address := none, latitude := none,
        longitude := none, timestamp := 0 } none [] 7).2.2.2.2.1 (by decide) (by decide)

/-- C8: `broadcastNotification` targeting.  Under the `clients`-map
invariant that hospital keys are distinct: a payload carrying a
hospital id is delivered to all and only that hospital's currently
registered connections; a target hospital with no subscriber entry
yields a silent no-op; and a payload with no hospital id is delivered
to every connection of every hospital. -/
theorem broadcastNotification_targets (clients : List (String × List Nat)) (h : String)
    (hn : (clients.map Prod.fst).Nodup) :
    (∀ conn : Nat, conn ∈ broadcastNotification clients (some h) ↔
       ∃ p ∈ clients, p.1 = h ∧ conn ∈ p.2) ∧
    ((∀ p ∈ clients, p.1 ≠ h) → broadcastNotification clients (some h) = []) ∧
    (∀ conn : Nat, conn ∈ broadcastNotification clients none ↔
       ∃ p ∈ clients, conn ∈ p.2) := by
  refine ⟨?_, ?_, ?_⟩
  · intro conn
    cases hf : clients.find? (fun c => decide (c.1 = h)) with
    | none =>
      simp only [broadcastNotification, hf, List.not_mem_nil, false_iff]
      rintro ⟨p, hp, hph, hconn⟩
      have := List.find?_eq_none.mp hf p hp
      simp [hph] at this
    | some c =>
      simp only [broadcastNotification, hf]
      have hcmem : c ∈ clients := List.mem_of_find?_eq_some hf
      have hch : c.1 = h := by
        have := List.find?_some hf
        simpa using this
      constructor
      · intro hconn
        by_cases he : c.2.isEmpty = true
        · rw [if_pos he] at hconn
          exact absurd hconn (List.not_mem_nil conn)
        · rw [if_neg he] at hconn
          exact ⟨c, hcmem, hch, hconn⟩
      · rintro ⟨p, hp, hph, hconn⟩
        have hpc : p = c := by
          refine List.inj_on_of_nodup_map hn hp hcmem ?_
          rw [hph, hch]
        subst hpc
        have he : ¬ p.2.isEmpty = true := by
          intro he
          rw [List.isEmpty_iff] at he
          rw [he] at hconn
          exact absurd hconn (List.not_mem_nil conn)
        rw [if_neg he]
        exact hconn
  · intro hall
    cases hf : clients.find? (fun c => decide (c.1 = h)) with
    | none => simp only [broadcastNotification, hf]
    | some c =>
      exfalso
      have hcmem : c ∈ clients := List.mem_of_find?_eq_some hf
      have hch : c.1 = h := by
        have := List.find?_some hf
        simpa using this
      exact hall c hcmem hch
  · intro conn
    simp only [broadcastNotification]
    rw [List.mem_flatten]
    constructor
    · rintro ⟨l, hl, hconn⟩
      obtain ⟨p, hp, rfl⟩ := List.mem_map.mp hl
      exact ⟨p, hp, hconn⟩
    · rintro ⟨p, hp, hconn⟩
      exact ⟨p.2, List.mem_map_of_mem Prod.snd hp, hconn⟩

/-- Witness for C8, at the spec's own scenario: two subscribers on H1
and one on H2; both H1 connections receive the payload and the H2
connection does not. -/
theorem broadcastNotification_targets_witness :
    1 ∈ broadcastNotification [("H1", [1, 2]), ("H2", [3])] (some "H1") ∧
    2 ∈ broadcastNotification [("H1", [1, 2]), ("H2", [3])] (some "H1") ∧
    ¬ 3 ∈ broadcastNotification [("H1", [1, 2]), ("H2", [3])] (some "H1") := by
  have ht := broadcastNotification_targets [("H1", [1, 2]), ("H2", [3])] "H1" (by decide)
  refine ⟨(ht.1 1).mpr ?_, (ht.1 2).mpr ?_, fun hc => ?_⟩
  · exact ⟨("H1", [1, 2]), by decide, rfl, by decide⟩
  · exact ⟨("H1", [1, 2]), by decide, rfl, by decide⟩
  · exact absurd ((ht.1 3).mp hc) (by decide)

/-- C9: `filterRecentLocations` keeps exactly the entries whose
effective timestamp (`timestamp || responseTime || createdAt`) is at or
after `now - maxAgeHours` hours — an entry exactly at the cutoff is
included, every strictly older one is excluded; the result is a sublist
of the input (no entry is modified or reordered); and the default
window is one hour. -/
theorem filterRecentLocations_spec (locations : List LocEntry) (now w : Int) :
    List.Sublist (filterRecentLocations locations now w) locations ∧
    (∀ l, l ∈ filterRecentLocations locations now w ↔
       l ∈ locations ∧ now - w * 60 * 60 * 1000 ≤ effectiveTimestamp l) ∧
    filterRecentLocationsDefault locations now = filterRecentLocations locations now 1 := by
  refine ⟨List.filter_sublist locations, ?_, rfl⟩
  intro l
  unfold filterRecentLocations
  rw [List.mem_filter]
  simp [decide_eq_true_eq]

theorem resolveDonor_mem {donors : List Donor} {did : String} {loc : LocationRecord}
    {d : Donor} (h : resolveDonor donors did loc = some d) : d ∈ donors := by
  cases h1 : donors.find? (fun x => decide (x.uniqueId = some did)) with
  | some d1 =>
    simp only [resolveDonor, h1] at h
    obtain rfl := Option.some.inj h
    exact List.mem_of_find?_eq_some h1
  | none =>
    simp only [resolveDonor, h1] at h
    cases hm : optStr loc.mobileNumber with
    | some m =>
      simp only [hm] at h
      cases h2 : donors.find?
          (fun x => decide (x.phone = m) || decide (x.phone = removeWhitespace m)) with
      | some d2 =>
        simp only [h2] at h
        obtain rfl := Option.some.inj h
        exact List.mem_of_find?_eq_some h2
      | none =>
        simp only [h2] at h
        cases hu : optStr loc.userName with
        | some n =>
          simp only [hu] at h
          exact List.mem_of_find?_eq_some h
        | none => simp only [hu] at h; cases h
    | none =>
      simp only [hm] at h
      cases hu : optStr loc.userName with
      | some n =>
        simp only [hu] at h
        exact List.mem_of_find?_eq_some h
      | none => simp only [hu] at h; cases h

/-- C10 (implicit frame effect): when `confirmDonation` resolves a
registered Donor profile and then fails with `RequestExpired` or
`ReservationConflict`, the resolved Donor's `lastDonationDate` has
nevertheless been set to the call time — the donor-profile update runs
before the reservation attempt and is not rolled back on these failure
paths. -/
theorem lastDonationDate_set_despite_failure (now : Int) (did : String) (dn : Option String)
    (rid : Option Nat) (st : ServerState) (loc : LocationRecord) (d : Donor)
    (hnd : (st.donors.map Donor.id).Nodup)
    (h1 : ¬ did = "") (h2 : did ∉ st.processingLock)
    (h3 : st.history.any (fun h => decide (h.donorId = did ∧ h.status = "completed")) = false)
    (h4 : st.locations.find? (fun l => decide (l.donorId = did)) = some loc)
    (hdonor : resolveDonor st.donors did loc = some d)
    (_hfail : (confirmDonation now did dn rid st).1 = Outcome.requestExpired ∨
             (confirmDonation now did dn rid st).1 = Outcome.reservationConflict) :
    (confirmDonation now did dn rid st).2.donors.find? (fun x => decide (x.id = d.id)) =
      some { d with lastDonationDate := some now } := by
  rcases h5 : resolveRequest now rid loc (resolveDonor st.donors did loc)
      st.requests st.nextId with ⟨b, reqs2, next2⟩
  rw [confirmDonation_run h1 h2 h3 h4 h5]
  have hdon := (finishDonation_frame now did (optStr loc.token) b
    (mkDonation now did dn (resolveDonor st.donors did loc) loc b)
    { st with
      processingLock := did :: st.processingLock
      requests := reqs2
      nextId := next2
      history := st.history ++ [mkDonation now did dn (resolveDonor st.donors did loc) loc b]
      donors := updateLastDonation now did (resolveDonor st.donors did loc) st.donors }).2.1
  rw [hdon]
  show (updateLastDonation now did (resolveDonor st.donors did loc) st.donors).find?
      (fun x => decide (x.id = d.id)) = some { d with lastDonationDate := some now }
  rw [hdonor]
  simp only [updateLastDonation]
  have hdm : d ∈ st.donors := resolveDonor_mem hdonor
  have hfindd : st.donors.find? (fun x => decide (x.id = d.id)) = some d :=
    find?_eq_of_nodup_key Donor.id hnd hdm
  obtain ⟨l₁, l₂, hsplit, hneg, hupd⟩ :=
    updateFirst_split (fun x => decide (x.id = d.id))
      (fun _ => { d with lastDonationDate := some now }) hfindd
  rw [hupd]
  exact find?_middle _ l₁ l₂ _ hneg (by simp)

/-- Concrete state for the C10 witness: registered donor (id 7) with a
live location, and a request already at capacity so the reservation
fails with a conflict. -/
def c10State : ServerState :=
  { requests := [{ id := 1, hospitalId := 2, bloodGroup := "O+", quantity := 1,
                   confirmedUnits := 1, status := ReqStatus.active, requiredBy := none,
                   activeTokens := [], createdAt := 0, fulfilledAt := none,
                   batchInProgress := false }]
    donors := [{ id := 7, uniqueId := some "D1", name := "Dee", phone := "123",
                 bloodGroup := some "O+", lastDonationDate := none }]
    locations := [{ donorId := "D1", userName := none, mobileNumber := none,
                    requestId := some 1, token := none, address := none,
                    latitude := none, longitude := none, timestamp := 0 }]
    history := []
    processingLock := []
    nextId := 10 }

/-- Witness for C10: the call fails with `ReservationConflict`, yet the
resolved donor's `lastDonationDate` now carries the call time. -/
theorem lastDonationDate_set_despite_failure_witness :
    (confirmDonation 50 "D1" none none c10State).2.donors.find?
        (fun x => decide (x.id = 7)) =
      some { id := 7, uniqueId := some "D1", name := "Dee", phone := "123",
             bloodGroup := some "O+", lastDonationDate := some 50 } :=
  lastDonationDate_set_despite_failure 50 "D1" none none c10State
    { donorId := "D1", userName := none, mobileNumber := none, requestId := some 1,
      token := none, address := none, latitude := none, longitude := none,
      timestamp := 0 }
    { id := 7, uniqueId := some "D1", name := "Dee", phone := "123",
      bloodGroup := some "O+", lastDonationDate := none }
    (by decide) (by decide) (by decide) (by decide) (by decide) (by decide)
    (Or.inr (by decide))
